import Mathlib

/-!
Shallow embedding of the shaka-player HLS manifest text parser
(src/lib/hls/manifest_text_parser.js and the model classes of
shaka.hls: Attribute, Tag, Segment, Playlist, and the computed
structures), together with theorems checking the natural-language
specification against it.

Strings are modelled as lists of characters (`Str`), JavaScript
numbers produced by `Number(...)` as the inductive `JSNum` (NaN and
the infinities are explicit; finite values are exact rationals, which
is faithful for every comparison made by the parser), and thrown
`shaka.util.Error`s as the `Except HlsError` monad.
-/

namespace Shaka

/-- Character-list strings, so that parsing recursions are structural. -/
abbrev Str := List Char

/-- Shorthand turning a Lean string literal into a `Str`. -/
def strLit (s : String) : Str := s.toList

/-- Result of the JavaScript `Number(...)` coercion: NaN, a signed
infinity (`inf true` is `+Infinity`), or a finite value, kept as an
exact rational. -/
inductive JSNum where
  | nan : JSNum
  | inf : Bool → JSNum
  | finite : ℚ → JSNum
deriving DecidableEq, Repr

/-- JavaScript whitespace as used by `String.prototype.trim` and by the
string-to-number coercion: ASCII blanks, the line terminators, NBSP and
the BOM (the inputs of this parser are decoded UTF-8 text). -/
def isJsSpace (c : Char) : Bool :=
  c == ' ' || c == '\t' || c == '\n' || c == '\r' ||
  c == Char.ofNat 11 || c == Char.ofNat 12 ||
  c == Char.ofNat 160 || c == Char.ofNat 65279 ||
  c == Char.ofNat 8232 || c == Char.ofNat 8233

/-- JavaScript `String.prototype.trim`. -/
def jsTrim (s : Str) : Str :=
  ((s.dropWhile isJsSpace).reverse.dropWhile isJsSpace).reverse

/-- Value of a list of decimal digits. -/
def digitsVal (ds : Str) : Nat :=
  ds.foldl (fun a c => a * 10 + (c.toNat - 48)) 0

/-- Value of one digit in a radix up to 16, `none` when the character is
not a digit of that radix. -/
def digitValBase (base : Nat) (c : Char) : Option Nat :=
  let v : Option Nat :=
    if c.isDigit then some (c.toNat - 48)
    else if 'a' ≤ c ∧ c ≤ 'f' then some (c.toNat - 87)
    else if 'A' ≤ c ∧ c ≤ 'F' then some (c.toNat - 55)
    else none
  match v with
  | some d => if d < base then some d else none
  | none => none

/-- Value of a radix literal body, `none` when some character is not a
digit of the radix. -/
def radixDigitsVal (base : Nat) (ds : Str) : Option Nat :=
  ds.foldl (fun acc c => acc.bind fun n => (digitValBase base c).map fun d => n * base + d)
    (some 0)

/-- The exponent suffix of a JavaScript decimal literal: empty input
means exponent 0; otherwise `e`/`E`, an optional sign and at least one
digit must consume the whole input. -/
def jsParseExp (s : Str) : Option Int :=
  match s with
  | [] => some 0
  | c :: rest =>
    if c == 'e' || c == 'E' then
      let (sgn, rest2) : Int × Str :=
        match rest with
        | '+' :: r => (1, r)
        | '-' :: r => (-1, r)
        | r => (1, r)
      let ds := rest2.takeWhile Char.isDigit
      let rest3 := rest2.dropWhile Char.isDigit
      if ds ≠ [] ∧ rest3 = [] then some (sgn * (digitsVal ds : Int)) else none
    else none

/-- The rational `mantissa * 10 ^ scale`, built with the core `mkRat`
normalization so that it evaluates inside the kernel. -/
def decimalRat (mantissa : Nat) (scale : Int) : ℚ :=
  if 0 ≤ scale then mkRat (Int.ofNat (mantissa * 10 ^ scale.toNat)) 1
  else mkRat (Int.ofNat mantissa) (10 ^ (-scale).toNat)

/-- An unsigned JavaScript decimal literal (digits, an optional dot with
optional fraction digits, an optional exponent), consuming the whole
input; `none` when the input is not of that shape. The value is
`digits(intpart ++ fracpart) * 10 ^ (exponent - |fracpart|)`. -/
def jsParseUnsignedDec (s : Str) : Option ℚ :=
  let ip := s.takeWhile Char.isDigit
  let r1 := s.dropWhile Char.isDigit
  match r1 with
  | '.' :: r2 =>
    let fp := r2.takeWhile Char.isDigit
    let r3 := r2.dropWhile Char.isDigit
    if ip = [] ∧ fp = [] then none
    else
      match jsParseExp r3 with
      | some e => some (decimalRat (digitsVal (ip ++ fp)) (e - fp.length))
      | none => none
  | _ =>
    if ip = [] then none
    else
      match jsParseExp r1 with
      | some e => some (decimalRat (digitsVal ip) e)
      | none => none

/-- A radix (hex/octal/binary) literal body: nonempty and all digits of
the radix, else NaN. -/
def radixNum (base : Nat) (ds : Str) : JSNum :=
  if ds = [] then .nan
  else
    match radixDigitsVal base ds with
    | some n => .finite (mkRat (Int.ofNat n) 1)
    | none => .nan

/-- A signed decimal JavaScript numeric literal or a signed Infinity. -/
def decNum (s : Str) : JSNum :=
  let (neg, body) : Bool × Str :=
    match s with
    | '+' :: r => (false, r)
    | '-' :: r => (true, r)
    | r => (false, r)
  if body = strLit "Infinity" then .inf !neg
  else
    match jsParseUnsignedDec body with
    | some q => .finite (if neg then -q else q)
    | none => .nan

/-- JavaScript `Number(...)` on an already-trimmed string: empty means 0,
a `0x`/`0o`/`0b` prefix selects a radix literal (no sign permitted), and
anything else is a signed decimal literal or Infinity. -/
def jsNumOfTrimmed (s : Str) : JSNum :=
  match s with
  | [] => .finite 0
  | '0' :: c :: rest =>
    if c = 'x' ∨ c = 'X' then radixNum 16 rest
    else if c = 'o' ∨ c = 'O' then radixNum 8 rest
    else if c = 'b' ∨ c = 'B' then radixNum 2 rest
    else decNum ('0' :: c :: rest)
  | _ => decNum s

/-- JavaScript `Number(...)` applied to a string. -/
def jsNumber (s : Str) : JSNum := jsNumOfTrimmed (jsTrim s)

/-- Newline normalization of `parsePlaylist`: the source replaces
`\r\n` and a `\r` not followed by `\n` (including a final `\r`) by a
single `\n`. -/
def normalizeNewlines : Str → Str
  | [] => []
  | '\r' :: '\n' :: rest => '\n' :: normalizeNewlines rest
  | '\r' :: rest => '\n' :: normalizeNewlines rest
  | c :: rest => c :: normalizeNewlines rest

/-- Worker for `splitLines`: `cur = none` means the previous character
was a line break whose run is still being consumed, `some acc` holds the
reversed characters of the piece being read. -/
def splitLinesAux : Str → Option Str → List Str
  | [], none => [[]]
  | [], some cur => [cur.reverse]
  | c :: rest, none =>
    if c = '\n' then splitLinesAux rest none
    else splitLinesAux rest (some [c])
  | c :: rest, some cur =>
    if c = '\n' then cur.reverse :: splitLinesAux rest none
    else splitLinesAux rest (some (c :: cur))

/-- JavaScript `str.split(/\n+/)`: pieces between maximal runs of line
breaks, with an empty piece at an end that carries a run. -/
def splitLines (s : Str) : List Str := splitLinesAux s (some [])

/-- The double-quote character, written by code point to keep quoting in
the sources below unambiguous. -/
def quoteChar : Char := Char.ofNat 34

/-- shaka.hls.Attribute: an immutable name/value pair. The value is
`Option Str` because the source can construct an attribute whose value
is the JavaScript `undefined` (an empty quoted attribute value, or the
URI attribute synthesized for a final `EXT-X-STREAM-INF` line). -/
structure Attribute where
  name : Str
  value : Option Str
deriving DecidableEq, Repr

/-- shaka.hls.Tag: id, name, ordered attribute list, optional scalar
value. The single `setName` mutation of the source (renaming a preload
hint) is modelled by rebuilding the tag before it is stored anywhere. -/
structure Tag where
  id : Nat
  name : Str
  attributes : List Attribute
  value : Option Str
deriving DecidableEq, Repr

/-- JavaScript truthiness of an optional string: `null`/`undefined` and
the empty string are falsy. -/
def jsTruthyStr (v : Option Str) : Bool :=
  match v with
  | some (_ :: _) => true
  | _ => false

/-- Serialization of one attribute inside `Tag.toString`: the value is
emitted unquoted exactly when `!isNaN(Number(value))`; an `undefined`
value stringifies to the text `undefined` inside quotes. -/
def attrToStr (a : Attribute) : Str :=
  let isNumericAttr : Bool :=
    match a.value with
    | some s => jsNumber s != JSNum.nan
    | none => false
  let v : Str :=
    match a.value with
    | some s => s
    | none => strLit "undefined"
  a.name ++ '=' :: (if isNumericAttr then v else quoteChar :: v ++ [quoteChar])

/-- shaka.hls.Tag.toString: `#NAME`, then, when a truthy value or some
kept attribute exists, a colon and the comma-joined value-then-attribute
appendages. -/
def Tag.toString (t : Tag) (attributesToSkip : Option (List Str)) : Str :=
  let kept := t.attributes.filter fun a =>
    match attributesToSkip with
    | none => true
    | some l => !(l.contains a.name)
  let appendagesA := kept.map attrToStr
  let appendages :=
    if jsTruthyStr t.value then t.value.getD [] :: appendagesA else appendagesA
  let tagStr := '#' :: t.name
  if appendages.length > 0 then tagStr ++ ':' :: List.intercalate [','] appendages
  else tagStr

/-- shaka.hls.Tag.getTagKey: the full serialization, or one omitting the
fixed grouping attributes. -/
def Tag.getTagKey (t : Tag) (keepAllAttributes : Bool) : Str :=
  if keepAllAttributes then t.toString none
  else t.toString (some [strLit "AUDIO", strLit "VIDEO", strLit "SUBTITLES",
    strLit "PATHWAY-ID", strLit "GROUP-ID", strLit "URI"])

/-- shaka.hls.Tag.getAttribute: the first attribute with the name. -/
def Tag.getAttribute (t : Tag) (n : Str) : Option Attribute :=
  t.attributes.find? fun a => a.name = n

/-- shaka.hls.Tag.getAttributeValue without a default: the found
attribute's value, or null. -/
def Tag.getAttributeValue (t : Tag) (n : Str) : Option Str :=
  match t.getAttribute n with
  | some a => a.value
  | none => none

/-- The errors parsePlaylist and the Tag accessors can throw
(shaka.util.Error codes HLS_PLAYLIST_HEADER_MISSING,
HLS_INVALID_PLAYLIST_HIERARCHY, INVALID_HLS_TAG carrying the offending
line, HLS_REQUIRED_ATTRIBUTE_MISSING carrying the attribute name). -/
inductive HlsError where
  | missingHeader : HlsError
  | invalidHierarchy : HlsError
  | malformedDirective : Str → HlsError
  | missingRequiredAttribute : Str → HlsError
deriving DecidableEq, Repr

/-- shaka.hls.Tag.getRequiredAttrValue: the attribute's value, or a
thrown HLS_REQUIRED_ATTRIBUTE_MISSING error. -/
def Tag.getRequiredAttrValue (t : Tag) (n : Str) : Except HlsError (Option Str) :=
  match t.getAttribute n with
  | some a => .ok a.value
  | none => .error (.missingRequiredAttribute n)

/-- A JavaScript LineTerminator: line feed, carriage return, line
separator U+2028 and paragraph separator U+2029. The dot of a
non-dotAll regular expression never matches one of these. -/
def isLineTerm (c : Char) : Bool :=
  c == '\n' || c == '\r' || c == Char.ofNat 0x2028 || c == Char.ofNat 0x2029

/-- The tagBlocks pattern of STATIC_PATTERNS applied to a whole line:
the name is everything from `EXT` up to the first colon (the negated
character class there also matches line terminators), the data is
everything after that colon when one exists; because the data group is
a dot repetition and the end anchor is not multiline, a data part
containing a line terminator makes the whole pattern fail. Lines not
beginning with `#EXT` do not match. -/
def parseTagBlocks (w : Str) : Option (Str × Option Str) :=
  if (strLit "#EXT").isPrefixOf w then
    let rest := w.drop 1
    let nm := rest.takeWhile fun c => c != ':'
    match rest.dropWhile (fun c => c != ':') with
    | [] => some (nm, none)
    | _ :: data => if data.any isLineTerm then none else some (nm, some data)
  else none

/-- The valueRegex of STATIC_PATTERNS read at the current position
(shaka.util.TextParser is not under src/; per the spec the scalar value
is the longest nonempty prefix free of commas and equals signs,
terminated by a comma - which is consumed - or by the end of input). -/
def readValue (s : Str) : Option (Str × Str) :=
  let v := s.takeWhile fun c => c != ',' && c != '='
  let r := s.dropWhile fun c => c != ',' && c != '='
  if v = [] then none
  else
    match r with
    | [] => some (v, [])
    | ',' :: rest => some (v, rest)
    | _ => none

/-- The quoted-empty corner of the attributeRegex: the source computes
`blockAttrs[2] || blockAttrs[3]`, so an empty quoted value falls through
to the unparticipating unquoted group and the attribute value becomes
`undefined`. -/
def emptyToUndef (q : Str) : Option Str :=
  if q = [] then none else some q

/-- The unquoted alternative of the attributeRegex: a possibly empty run
free of quotes and commas, terminated by a consumed comma or the end of
input; a following quote makes the whole attribute fail to match. -/
def tryUnquoted (k : Str) (s : Str) : Option (Attribute × Str) :=
  let v := s.takeWhile fun c => c != ',' && c != quoteChar
  let r := s.dropWhile fun c => c != ',' && c != quoteChar
  match r with
  | [] => some (⟨k, some v⟩, [])
  | ',' :: rest => some (⟨k, some v⟩, rest)
  | _ => none

/-- The attributeRegex of STATIC_PATTERNS read at the current position:
a nonempty key up to the first equals sign, then either a quoted string
(anything up to the closing quote) or an unquoted run, each of which
must be followed by a comma (consumed) or the end of input; when the
quoted alternative has no closing quote or no valid terminator, the
match backtracks to the unquoted alternative. -/
def readAttribute (s : Str) : Option (Attribute × Str) :=
  let k := s.takeWhile fun c => c != '='
  let r := s.dropWhile fun c => c != '='
  if k = [] then none
  else
    match r with
    | [] => none
    | _ :: r2 =>
      match r2 with
      | c :: r3 =>
        if c = quoteChar then
          let q := r3.takeWhile fun d => d != quoteChar
          match r3.dropWhile (fun d => d != quoteChar) with
          | [] => tryUnquoted k r2
          | _ :: r5 =>
            match r5 with
            | [] => some (⟨k, emptyToUndef q⟩, [])
            | ',' :: r6 => some (⟨k, emptyToUndef q⟩, r6)
            | _ => tryUnquoted k r2
        else tryUnquoted k r2
      | [] => tryUnquoted k r2

/-- shaka.util.TextParser.skipWhitespace between attribute reads
(modelled from the spec, the utility is not under src/): blanks and tabs
are skipped. -/
def skipWs (s : Str) : Str :=
  s.dropWhile fun c => c == ' ' || c == '\t'

/-- The attribute loop of parseTag, with fuel. Each successful
`readAttribute` consumes at least the nonempty key and the equals sign,
so `s.length` steps of fuel never run out (`readAttributesFuel_eq`
below makes the fuel-independence precise). -/
def readAttributesFuel : Nat → Str → List Attribute
  | 0, _ => []
  | fuel + 1, s =>
    match readAttribute s with
    | none => []
    | some (a, rest) => a :: readAttributesFuel fuel (skipWs rest)

/-- The attribute loop of parseTag. -/
def readAttributes (s : Str) : List Attribute :=
  readAttributesFuel s.length s

/-- shaka.hls.ManifestTextParser.parseTag: split the line into name and
data via the tagBlocks pattern (failing with INVALID_HLS_TAG, which
cites the line), then, when the data is nonempty, read an optional
scalar value followed by the attribute list. -/
def parseTag (id : Nat) (word : Str) : Except HlsError Tag :=
  match parseTagBlocks word with
  | none => .error (.malformedDirective word)
  | some (name, dataOpt) =>
    match dataOpt with
    | none => .ok ⟨id, name, [], none⟩
    | some [] => .ok ⟨id, name, [], none⟩
    | some (c :: cs) =>
      let data := c :: cs
      match readValue data with
      | some (v, rest) => .ok ⟨id, name, readAttributes rest, some v⟩
      | none => .ok ⟨id, name, readAttributes data, none⟩

/-- shaka.hls.PlaylistType. -/
inductive PlaylistType where
  | MASTER : PlaylistType
  | MEDIA : PlaylistType
deriving DecidableEq, Repr

/-- shaka.hls.SegmentComputed: the per-segment derived view. Numeric
fields are `JSNum` because the source stores raw `Number(...)` results,
NaN included. -/
structure SegmentComputed where
  extinf : Option Tag
  extinfDuration : JSNum
  map : Option Tag
  mapId : Option Nat
  gap : Option Tag
  byterange : Option Tag
  discontinuity : Option Tag
  keys : List Tag
  bitrate : JSNum
  dateTime : Option Tag
  tiles : Option Tag
deriving DecidableEq, Repr

/-- shaka.hls.Segment. -/
structure Segment where
  verbatimSegmentUri : Str
  tags : List Tag
  computed : SegmentComputed
  partialSegments : List Tag
deriving DecidableEq, Repr

/-- shaka.hls.PlaylistComputed: the playlist tag index. -/
structure PlaylistComputed where
  mediaSequence : JSNum
  skippedSegments : JSNum
  discontinuitySequence : JSNum
  skipTag : Option Tag
  endListTag : Option Tag
  serverControlTag : Option Tag
  playlistTypeTag : Option Tag
  startTag : Option Tag
  partInfTag : Option Tag
  targetDurationTag : Option Tag
  variableTags : List Tag
  dateRangeTags : List Tag
  mediaTags : List Tag
  variantTags : List Tag
  imageTags : List Tag
  iFrameTags : List Tag
  sessionKeyTags : List Tag
  sessionDataTags : List Tag
  contentSteeringTags : List Tag
deriving DecidableEq, Repr

/-- shaka.hls.SegmentsComputed: the pass-level aggregate. -/
structure SegmentsComputed where
  count : Nat
  gapCount : Nat
  lastExtinfDuration : Option JSNum
deriving DecidableEq, Repr

/-- shaka.hls.PlaylistComputedData. -/
structure PlaylistComputedData where
  playlist : PlaylistComputed
  segments : SegmentsComputed
deriving DecidableEq, Repr

/-- shaka.hls.Playlist. `segments` is `Option` because the constructor
stores `segments || null`: a missing argument becomes null, while any
array - the empty array included, which is truthy in JavaScript - is
stored as is. -/
structure Playlist where
  type : PlaylistType
  tags : List Tag
  segments : Option (List Segment)
  computed : PlaylistComputedData
deriving DecidableEq, Repr

/-- createDefaultComputed_ of the source. -/
def createDefaultComputed_ : SegmentComputed :=
  ⟨none, .finite 0, none, none, none, none, none, [], .finite 0, none, none⟩

/-- createDefaultSegmentsComputed_ of the source. -/
def createDefaultSegmentsComputed_ : SegmentsComputed := ⟨0, 0, none⟩

/-- createDefaultTagIndex_ of the source: media sequence 0, skipped
segments 0, discontinuity sequence -1, empty slots and lists. -/
def createDefaultTagIndex_ : PlaylistComputed :=
  ⟨.finite 0, .finite 0, .finite (-1), none, none, none, none, none, none, none,
    [], [], [], [], [], [], [], [], []⟩

/-- JavaScript falsiness of a number: 0 (and -0, identical in `ℚ`) and
NaN are falsy. -/
def jsFalsyNum (n : JSNum) : Bool :=
  n == .finite 0 || n == .nan

/-- The coercion `Number(tag.value || dflt)` of the source: a null or
empty (falsy) value coerces the numeric default, anything else goes
through `Number(...)` on the string. -/
def jsNumValueOr (v : Option Str) (dflt : ℚ) : JSNum :=
  match v with
  | some (c :: cs) => jsNumber (c :: cs)
  | _ => .finite dflt

/-- updateComputedForTag_ of the source: fold one segment-scoped tag
into the pending SegmentComputed; first-wins per field, append-only for
keys. The source reads `tag.value.split(',')[0]` for EXTINF: a missing
EXTINF value would throw a TypeError there; it is modelled as the empty
string (no claim exercises a value-less EXTINF). -/
def updateComputedForTag_ (computed : SegmentComputed) (tag : Tag) : SegmentComputed :=
  if tag.name = strLit "EXTINF" then
    if computed.extinf.isNone then
      let duration := (tag.value.getD []).takeWhile fun c => c != ','
      { computed with extinf := some tag, extinfDuration := jsNumber duration }
    else computed
  else if tag.name = strLit "EXT-X-MAP" then
    if computed.map.isNone then
      { computed with map := some tag, mapId := some tag.id }
    else computed
  else if tag.name = strLit "EXT-X-GAP" then
    if computed.gap.isNone then { computed with gap := some tag } else computed
  else if tag.name = strLit "EXT-X-BYTERANGE" then
    if computed.byterange.isNone then { computed with byterange := some tag } else computed
  else if tag.name = strLit "EXT-X-DISCONTINUITY" then
    if computed.discontinuity.isNone then { computed with discontinuity := some tag } else computed
  else if tag.name = strLit "EXT-X-KEY" then
    { computed with keys := computed.keys ++ [tag] }
  else if tag.name = strLit "EXT-X-PROGRAM-DATE-TIME" then
    if computed.dateTime.isNone then { computed with dateTime := some tag } else computed
  else if tag.name = strLit "EXT-X-TILES" then
    if computed.tiles.isNone then { computed with tiles := some tag } else computed
  else if tag.name = strLit "EXT-X-BITRATE" then
    if jsFalsyNum computed.bitrate then
      { computed with bitrate := jsNumValueOr tag.value 0 }
    else computed
  else computed

/-- updateTagIndexForTag_ of the source: fold one playlist-scoped tag
into the PlaylistComputed index. Note EXT-X-SKIP overwrites its slot
unconditionally while the other single-value slots are guarded. -/
def updateTagIndexForTag_ (index : PlaylistComputed) (tag : Tag) : PlaylistComputed :=
  if tag.name = strLit "EXT-X-MEDIA-SEQUENCE" then
    { index with mediaSequence := jsNumValueOr tag.value 0 }
  else if tag.name = strLit "EXT-X-SKIP" then
    let skipped := tag.getAttributeValue (strLit "SKIPPED-SEGMENTS")
    let skippedNum : JSNum :=
      match skipped with
      | some (c :: cs) => jsNumber (c :: cs)
      | _ => .finite 0
    { index with skipTag := some tag, skippedSegments := skippedNum }
  else if tag.name = strLit "EXT-X-DEFINE" then
    { index with variableTags := index.variableTags ++ [tag] }
  else if tag.name = strLit "EXT-X-ENDLIST" then
    if index.endListTag.isNone then { index with endListTag := some tag } else index
  else if tag.name = strLit "EXT-X-SERVER-CONTROL" then
    if index.serverControlTag.isNone then { index with serverControlTag := some tag } else index
  else if tag.name = strLit "EXT-X-PLAYLIST-TYPE" then
    if index.playlistTypeTag.isNone then { index with playlistTypeTag := some tag } else index
  else if tag.name = strLit "EXT-X-START" then
    if index.startTag.isNone then { index with startTag := some tag } else index
  else if tag.name = strLit "EXT-X-PART-INF" then
    if index.partInfTag.isNone then { index with partInfTag := some tag } else index
  else if tag.name = strLit "EXT-X-TARGETDURATION" then
    if index.targetDurationTag.isNone then { index with targetDurationTag := some tag } else index
  else if tag.name = strLit "EXT-X-DATERANGE" then
    { index with dateRangeTags := index.dateRangeTags ++ [tag] }
  else if tag.name = strLit "EXT-X-DISCONTINUITY-SEQUENCE" then
    { index with discontinuitySequence := jsNumValueOr tag.value (-1) }
  else if tag.name = strLit "EXT-X-MEDIA" then
    { index with mediaTags := index.mediaTags ++ [tag] }
  else if tag.name = strLit "EXT-X-STREAM-INF" then
    { index with variantTags := index.variantTags ++ [tag] }
  else if tag.name = strLit "EXT-X-IMAGE-STREAM-INF" then
    { index with imageTags := index.imageTags ++ [tag] }
  else if tag.name = strLit "EXT-X-I-FRAME-STREAM-INF" then
    { index with iFrameTags := index.iFrameTags ++ [tag] }
  else if tag.name = strLit "EXT-X-SESSION-KEY" then
    { index with sessionKeyTags := index.sessionKeyTags ++ [tag] }
  else if tag.name = strLit "EXT-X-SESSION-DATA" then
    { index with sessionDataTags := index.sessionDataTags ++ [tag] }
  else if tag.name = strLit "EXT-X-CONTENT-STEERING" then
    { index with contentSteeringTags := index.contentSteeringTags ++ [tag] }
  else index

/-- MEDIA_PLAYLIST_TAGS of the source. -/
def MEDIA_PLAYLIST_TAGS : List Str :=
  [strLit "EXT-X-TARGETDURATION", strLit "EXT-X-MEDIA-SEQUENCE",
   strLit "EXT-X-DISCONTINUITY-SEQUENCE", strLit "EXT-X-PLAYLIST-TYPE",
   strLit "EXT-X-I-FRAMES-ONLY", strLit "EXT-X-ENDLIST",
   strLit "EXT-X-SERVER-CONTROL", strLit "EXT-X-SKIP",
   strLit "EXT-X-PART-INF", strLit "EXT-X-DATERANGE"]

/-- SEGMENT_TAGS of the source. -/
def SEGMENT_TAGS : List Str :=
  [strLit "EXTINF", strLit "EXT-X-BYTERANGE", strLit "EXT-X-DISCONTINUITY",
   strLit "EXT-X-PROGRAM-DATE-TIME", strLit "EXT-X-KEY", strLit "EXT-X-DATERANGE",
   strLit "EXT-X-MAP", strLit "EXT-X-GAP", strLit "EXT-X-TILES"]

/-- Modelled from the spec: shaka.hls.Utils.isComment is not under src/;
the spec classifies a line as a comment when it starts with the marker
character but not with the directive prefix `#EXT`. -/
def isComment (line : Str) : Bool :=
  (strLit "#").isPrefixOf line && !((strLit "#EXT").isPrefixOf line)

/-- The mutable locals of parseSegments_, carried across lines; the
playlist tag list and index are included because media-playlist tags
interleaved with segments still update them, and the tag-id counter is
threaded because every parsed tag draws a fresh id. -/
structure SegState where
  segments : List Segment
  segmentTags : List Tag
  partialSegmentTags : List Tag
  currentMapTag : Option Tag
  gapCount : Nat
  lastExtinfDuration : Option JSNum
  computed : SegmentComputed
  playlistTags : List Tag
  tagIndex : PlaylistComputed
  nextId : Nat
deriving DecidableEq, Repr

/-- The directive branch of the parseSegments_ loop body: classify the
parsed tag (media-playlist tag, map, partial segment, preload hint -
renamed in place when it hints a map - or plain segment tag) and fold it
into the pending computed data. A `#EXT`-prefixed line always matches
the tag pattern, so the error branch of parseTag is unreachable here and
modelled as a no-op. -/
def segTagStep (st : SegState) (line : Str) : SegState :=
  match parseTag st.nextId line with
  | .error _ => st
  | .ok tag =>
    let st := { st with nextId := st.nextId + 1 }
    if MEDIA_PLAYLIST_TAGS.contains tag.name then
      { st with playlistTags := st.playlistTags ++ [tag],
                tagIndex := updateTagIndexForTag_ st.tagIndex tag }
    else if tag.name = strLit "EXT-X-MAP" then
      { st with currentMapTag := some tag,
                computed := updateComputedForTag_ st.computed tag }
    else if tag.name = strLit "EXT-X-PART" then
      { st with partialSegmentTags := st.partialSegmentTags ++ [tag],
                computed := updateComputedForTag_ st.computed tag }
    else if tag.name = strLit "EXT-X-PRELOAD-HINT" then
      if tag.getAttributeValue (strLit "TYPE") = some (strLit "PART") then
        { st with partialSegmentTags := st.partialSegmentTags ++ [tag],
                  computed := updateComputedForTag_ st.computed tag }
      else if tag.getAttributeValue (strLit "TYPE") = some (strLit "MAP") then
        let renamed := { tag with name := strLit "EXT-X-MAP" }
        { st with currentMapTag := some renamed,
                  computed := updateComputedForTag_ st.computed renamed }
      else { st with computed := updateComputedForTag_ st.computed tag }
    else
      { st with segmentTags := st.segmentTags ++ [tag],
                computed := updateComputedForTag_ st.computed tag }

/-- The URI branch of the parseSegments_ loop body: append the carried
map tag, roll the duration and gap flags into the pass aggregates, let
the computed view inherit the carried map when none was set, materialize
the segment and reset the pending state. -/
def uriStep (st : SegState) (line : Str) : SegState :=
  let segmentTags :=
    match st.currentMapTag with
    | some m => st.segmentTags ++ [m]
    | none => st.segmentTags
  let lastExtinfDuration :=
    if st.computed.extinf.isSome then some st.computed.extinfDuration
    else st.lastExtinfDuration
  let gapCount := if st.computed.gap.isSome then st.gapCount + 1 else st.gapCount
  let computed :=
    match st.computed.map, st.currentMapTag with
    | none, some m => { st.computed with map := some m, mapId := some m.id }
    | _, _ => st.computed
  let seg : Segment := ⟨jsTrim line, segmentTags, computed, st.partialSegmentTags⟩
  { st with segments := st.segments ++ [seg], segmentTags := [],
            partialSegmentTags := [], computed := createDefaultComputed_,
            lastExtinfDuration := lastExtinfDuration, gapCount := gapCount }

/-- The end-of-input step of parseSegments_: an unflushed partial
segment list is wrapped into a final segment with an empty URI whose
computed view is rebuilt from scratch over its own tag list. -/
def flushDangling (st : SegState) : SegState :=
  if st.partialSegmentTags.isEmpty then st
  else
    let segmentTags :=
      match st.currentMapTag with
      | some m => st.segmentTags ++ [m]
      | none => st.segmentTags
    let computed := segmentTags.foldl updateComputedForTag_ createDefaultComputed_
    let seg : Segment := ⟨[], segmentTags, computed, st.partialSegmentTags⟩
    { st with segments := st.segments ++ [seg], segmentTags := segmentTags }

/-- The line loop of parseSegments_: directives, comments, URI lines. -/
def segLoop : List Str → SegState → SegState
  | [], st => flushDangling st
  | line :: rest, st =>
    if (strLit "#EXT").isPrefixOf line then segLoop rest (segTagStep st line)
    else if isComment line then segLoop rest st
    else segLoop rest (uriStep st line)

/-- The pre-sizing of the segments array in the source is a pure
performance device (the array is trimmed back to the emitted count), so
the emitted-segment list and its length model `segments` and
`analysis.count` exactly. -/
def segmentsAnalysis (st : SegState) : SegmentsComputed :=
  ⟨st.segments.length, st.gapCount, st.lastExtinfDuration⟩

/-- The mutable locals of the parsePlaylist scanning loop. `skip` starts
true so that the already-checked header line is consumed, and is set
again by a stream-variant tag to consume its URI line. -/
structure ScanState where
  playlistType : PlaylistType
  typeDetected : Bool
  tags : List Tag
  tagIndex : PlaylistComputed
  skip : Bool
  nextId : Nat
deriving DecidableEq, Repr

/-- The type-detection block of parsePlaylist, run once per directive
until a type-relevant tag fixes the type: media-playlist tags and
segment tags mean MEDIA, stream-variant and alternative-media tags keep
MASTER. -/
def detectType (st : ScanState) (tag : Tag) : PlaylistType × Bool :=
  if st.typeDetected then (st.playlistType, true)
  else if MEDIA_PLAYLIST_TAGS.contains tag.name then (.MEDIA, true)
  else if tag.name = strLit "EXT-X-STREAM-INF" ∨ tag.name = strLit "EXT-X-MEDIA" then
    (st.playlistType, true)
  else if SEGMENT_TAGS.contains tag.name then (.MEDIA, true)
  else (st.playlistType, false)

/-- The non-segment advance of the parsePlaylist scanning loop: record
the detected type, push the tag (a stream-variant tag first receives the
next line as a synthesized URI attribute; the source pushes the tag
object and mutates it afterwards, which is observationally the same),
update the tag index, and set the skip flag for a stream-variant's URI
line. -/
def scanAdvance (st : ScanState) (tag : Tag) (next : Option Str) : ScanState :=
  let pd := detectType st tag
  let isStreamInf := tag.name = strLit "EXT-X-STREAM-INF"
  let tag :=
    if isStreamInf then
      { tag with attributes := tag.attributes ++ [⟨strLit "URI", next⟩] }
    else tag
  { playlistType := pd.1, typeDetected := pd.2,
    tags := st.tags ++ [tag],
    tagIndex := updateTagIndexForTag_ st.tagIndex tag,
    skip := isStreamInf, nextId := st.nextId + 1 }

/-- The scanning loop of parsePlaylist. A segment tag while the detected
type is not MEDIA throws HLS_INVALID_PLAYLIST_HIERARCHY; otherwise the
segment aggregator takes over from the current line (the source passes
the current index as parseSegments_'s startIndex, so the transition line
is parsed a second time there with a fresh id). -/
def scanLoop : List Str → ScanState → Except HlsError Playlist
  | [], st =>
    .ok ⟨st.playlistType, st.tags, some [], ⟨st.tagIndex, createDefaultSegmentsComputed_⟩⟩
  | line :: rest, st =>
    if isComment line || st.skip then scanLoop rest { st with skip := false }
    else
      match parseTag st.nextId line with
      | .error e => .error e
      | .ok tag =>
        if SEGMENT_TAGS.contains tag.name then
          if (detectType st tag).1 ≠ .MEDIA then .error .invalidHierarchy
          else
            let fin := segLoop (line :: rest)
              ⟨[], [], [], none, 0, none, createDefaultComputed_, st.tags, st.tagIndex,
               st.nextId + 1⟩
            .ok ⟨(detectType st tag).1, fin.playlistTags, some fin.segments,
                 ⟨fin.tagIndex, segmentsAnalysis fin⟩⟩
        else scanLoop rest (scanAdvance st tag rest.head?)

/-- The header pattern of STATIC_PATTERNS applied to the first line
(which contains no line break after splitting): `#EXTM3U` at the start
followed by the end of the line, a blank or a tab. -/
def headerMatches (line : Str) : Bool :=
  (strLit "#EXTM3U").isPrefixOf line &&
    (match line.drop 7 with
     | [] => true
     | c :: _ => c == ' ' || c == '\t' || c == '\n')

/-- The initial scanner state of a fresh parser instance: type MASTER,
nothing detected, empty tag list and default index, `skip` set so the
header line is consumed, tag ids starting at 0. -/
def initialScanState : ScanState :=
  ⟨.MASTER, false, [], createDefaultTagIndex_, true, 0⟩

/-- shaka.hls.ManifestTextParser.parsePlaylist on the decoded text:
normalize newlines, trim, split on line-break runs, check the header,
then run the scanning state machine. -/
def parsePlaylist (data : Str) : Except HlsError Playlist :=
  let str := jsTrim (normalizeNewlines data)
  let lines := splitLines str
  if !headerMatches (lines.headD []) then .error .missingHeader
  else scanLoop lines initialScanState

/-! ### Claim C1 - gap accounting across mixed full/partial gaps -/

/-- The mixed-gap media playlist of the specification (and of the
repository's own unit test suite): segment 1 carries a GAP=YES partial
segment, segment 2 a full-segment EXT-X-GAP marker, segment 3 another
GAP=YES partial segment. -/
def mixedGapDoc : Str := strLit
  ("#EXTM3U\n#EXT-X-VERSION:6\n#EXT-X-TARGETDURATION:6\n" ++
   "#EXT-X-PART-INF:PART-TARGET=2\n#EXTINF:6,\n" ++
   "#EXT-X-PART:DURATION=2,URI=\"part1.mp4\",GAP=YES\n" ++
   "#EXT-X-PART:DURATION=2,URI=\"part2.mp4\"\n" ++
   "#EXT-X-PART:DURATION=2,URI=\"part3.mp4\"\nsegment1.mp4\n" ++
   "#EXTINF:6,\n#EXT-X-GAP\nsegment2.mp4\n#EXTINF:6,\n" ++
   "#EXT-X-PART:DURATION=2,URI=\"part4.mp4\"\n" ++
   "#EXT-X-PART:DURATION=2,URI=\"part5.mp4\",GAP=YES\n" ++
   "#EXT-X-PART:DURATION=2,URI=\"part6.mp4\"\nsegment3.mp4\n")

/-- C1: the claim (and the repository's unit tests) require
`gapCount == 3` on the mixed-gap playlist, counting both the
full-segment gap marker and the two GAP=YES partial segments. The code
increments the gap counter only when the pending computed view carries
an EXT-X-GAP tag, and `updateComputedForTag_` has no case for
EXT-X-PART or EXT-X-PRELOAD-HINT, so partial-segment GAP=YES
attributes are never counted: the parser returns 3 segments but
`gapCount = 1`. -/
theorem c1_gapCount_mixed_code_result :
    (parsePlaylist mixedGapDoc).map
      (fun p => (p.computed.segments.gapCount, p.computed.segments.count)) =
      .ok (1, 3) := by
  rfl

/-! ### Claim C3 - numeric fallbacks inside indexing/computation -/

/-- A media playlist whose numeric-valued directives all carry a
present but non-numeric value. -/
def nonNumericDoc : Str := strLit
  ("#EXTM3U\n#EXT-X-MEDIA-SEQUENCE:abc\n#EXT-X-DISCONTINUITY-SEQUENCE:xyz\n" ++
   "#EXT-X-SKIP:SKIPPED-SEGMENTS=foo\n#EXTINF:bad\n#EXT-X-BITRATE:nope\nuri\n")

/-- A media playlist whose numeric-valued directives all omit their
value (or the SKIPPED-SEGMENTS attribute). -/
def absentNumericDoc : Str := strLit
  ("#EXTM3U\n#EXT-X-MEDIA-SEQUENCE\n#EXT-X-DISCONTINUITY-SEQUENCE\n" ++
   "#EXT-X-SKIP:A=1\n#EXTINF:5\n#EXT-X-BITRATE\nuri\n")

/-- C3, counterexample: the claim says a non-numeric media-sequence
value takes the fallback 0 and never produces NaN; the code computes
`Number(tag.value || 0)`, and a non-empty non-numeric value is truthy,
so the field becomes NaN (which is distinct from the claimed
fallback). -/
theorem c3_counterexample :
    (parsePlaylist nonNumericDoc).map (fun p => p.computed.playlist.mediaSequence) =
        .ok JSNum.nan ∧
      JSNum.nan ≠ JSNum.finite 0 := by
  exact ⟨by rfl, by decide⟩

/-- C3, amended: the defined fallbacks (0, and -1 for the
discontinuity sequence) apply when the value is absent or empty; a
present non-numeric value instead yields NaN in the computed field; in
both cases the parse succeeds rather than aborting. Checked on the two
documents above for media-sequence, discontinuity-sequence,
skipped-segments, the EXTINF duration and the bitrate. -/
theorem c3_numeric_fallbacks_amended :
    ((parsePlaylist absentNumericDoc).map fun p =>
        (p.computed.playlist.mediaSequence, p.computed.playlist.discontinuitySequence,
         p.computed.playlist.skippedSegments,
         p.segments.map (·.map fun s => (s.computed.extinfDuration, s.computed.bitrate)))) =
      .ok (.finite 0, .finite (-1), .finite 0, some [(.finite 5, .finite 0)]) ∧
    ((parsePlaylist nonNumericDoc).map fun p =>
        (p.computed.playlist.mediaSequence, p.computed.playlist.discontinuitySequence,
         p.computed.playlist.skippedSegments,
         p.segments.map (·.map fun s => (s.computed.extinfDuration, s.computed.bitrate)))) =
      .ok (.nan, .nan, .nan, some [(.nan, .nan)]) := by
  exact ⟨by rfl, by rfl⟩

/-! ### Claim C2 - segments non-null iff MEDIA -/

/-- A master playlist: a stream-variant declaration with its URI line
and nothing that would switch the parser into segment mode. -/
def masterDoc : Str := strLit
  "#EXTM3U\n#EXT-X-STREAM-INF:BANDWIDTH=2165224\nprog_index.m3u8"

/-- C2, counterexample: the claim says a MASTER playlist has
`segments == null`; the code's final return passes the empty array,
and the constructor stores `segments || null` where an empty array is
truthy, so a MASTER playlist carries `segments == []`, which is
non-null. -/
theorem c2_counterexample :
    ((parsePlaylist masterDoc).map fun p => (p.type, p.segments)) =
      .ok (.MASTER, some []) := by
  rfl

/-- The tag line pattern fails on every line that does not start with
the directive prefix `#EXT` (it also fails on prefixed lines whose
data part holds a line terminator). -/
theorem parseTagBlocks_none_of_bare (w : Str)
    (h : (strLit "#EXT").isPrefixOf w = false) :
    parseTagBlocks w = none := by
  simp [parseTagBlocks, h]

/-- A line without the `#EXT` prefix makes parseTag throw the
INVALID_HLS_TAG error citing that line. -/
theorem parseTag_err (id : Nat) (w : Str)
    (h : (strLit "#EXT").isPrefixOf w = false) :
    parseTag id w = .error (.malformedDirective w) := by
  unfold parseTag
  rw [parseTagBlocks_none_of_bare w h]

/-- Every parseTag failure is the INVALID_HLS_TAG error citing the
line: once the tag pattern has matched, the value and attribute reads
never throw. -/
theorem parseTag_error_shape (id : Nat) (w : Str) (e : HlsError)
    (h : parseTag id w = .error e) :
    e = .malformedDirective w := by
  unfold parseTag at h
  cases hb : parseTagBlocks w with
  | none =>
    rw [hb] at h
    cases h
    rfl
  | some nd =>
    rw [hb] at h
    obtain ⟨name, dataOpt⟩ := nd
    cases dataOpt with
    | none => exact Except.noConfusion h
    | some data =>
      cases data with
      | nil => exact Except.noConfusion h
      | cons c cs =>
        simp only at h
        cases hrv : readValue (c :: cs) with
        | none => rw [hrv] at h; exact Except.noConfusion h
        | some vr =>
          rw [hrv] at h
          obtain ⟨v, rest⟩ := vr
          exact Except.noConfusion h

/-- Both return sites of the scanning loop store an array for the
segments field (the empty array when segment mode was never entered),
and a MASTER result can only come from the final return site. -/
theorem scanLoop_ok_segments :
    ∀ (lines : List Str) (st : ScanState) (p : Playlist),
      scanLoop lines st = .ok p →
      p.segments.isSome = true ∧ (p.type = .MASTER → p.segments = some []) := by
  intro lines
  induction lines with
  | nil =>
    intro st p h
    cases h
    exact ⟨rfl, fun _ => rfl⟩
  | cons line rest ih =>
    intro st p h
    rw [scanLoop] at h
    by_cases hskip : (isComment line || st.skip) = true
    · rw [if_pos hskip] at h
      exact ih _ _ h
    · rw [if_neg hskip] at h
      cases hpt : parseTag st.nextId line with
      | error e =>
        rw [hpt] at h
        exact Except.noConfusion h
      | ok tag =>
        rw [hpt] at h
        dsimp only at h
        by_cases hseg : SEGMENT_TAGS.contains tag.name = true
        · rw [if_pos hseg] at h
          by_cases hm : (detectType st tag).1 = .MEDIA
          · rw [if_neg (by simpa using hm)] at h
            cases h
            refine ⟨rfl, fun hM => ?_⟩
            rw [hm] at hM
            exact PlaylistType.noConfusion hM
          · rw [if_pos hm] at h
            exact Except.noConfusion h
        · rw [if_neg hseg] at h
          exact ih _ _ h

/-- C2, amended: on every Playlist returned by parsePlaylist the
segments field is non-null regardless of type; a playlist that never
enters segment mode - every MASTER playlist in particular - carries the
empty segment list rather than null (null can only arise from direct
Playlist construction elsewhere). -/
theorem c2_segments_always_non_null (data : Str) (p : Playlist)
    (h : parsePlaylist data = .ok p) :
    p.segments.isSome = true ∧ (p.type = .MASTER → p.segments = some []) := by
  simp only [parsePlaylist] at h
  by_cases hh : headerMatches ((splitLines (jsTrim (normalizeNewlines data))).headD []) = true
  · simp only [hh, Bool.not_true, Bool.false_eq_true, if_false] at h
    exact scanLoop_ok_segments _ _ _ h
  · have hf : headerMatches ((splitLines (jsTrim (normalizeNewlines data))).headD []) = false := by
      cases hb : headerMatches ((splitLines (jsTrim (normalizeNewlines data))).headD [])
      · rfl
      · exact absurd hb hh
    rw [hf] at h
    exact Except.noConfusion h

/-- C2 witness: the amended theorem applied to the concrete master
playlist. -/
theorem c2_segments_always_non_null_witness :
    ∃ p, parsePlaylist masterDoc = .ok p ∧
      p.segments.isSome = true ∧ (p.type = .MASTER → p.segments = some []) := by
  cases h : parsePlaylist masterDoc with
  | error e =>
    have hok : (parsePlaylist masterDoc).isOk = true := by rfl
    rw [h] at hok
    exact Bool.noConfusion hok
  | ok p => exact ⟨p, rfl, c2_segments_always_non_null masterDoc p h⟩

/-! ### Claim C4 - single-valued tag slots -/

/-- A media playlist with duplicated single-slot directives: two
target-duration tags and two skip tags. -/
def duplicateSlotsDoc : Str := strLit
  ("#EXTM3U\n#EXT-X-TARGETDURATION:6\n#EXT-X-TARGETDURATION:7\n" ++
   "#EXT-X-SKIP:SKIPPED-SEGMENTS=1\n#EXT-X-SKIP:SKIPPED-SEGMENTS=2")

/-- C4, counterexample: the claim lists the skip slot among the
first-occurrence-wins slots; the code's EXT-X-SKIP case overwrites the
slot unconditionally, so after two skip tags (ids 2 and 3 here) the
slot holds the second one and `skippedSegments` its value 2, while the
guarded target-duration slot does keep the first occurrence (id 0).
Both duplicates stay in the raw tag list (4 tags). -/
theorem c4_counterexample :
    ((parsePlaylist duplicateSlotsDoc).map fun p =>
        (p.computed.playlist.skipTag.map Tag.id,
         p.computed.playlist.skippedSegments,
         p.computed.playlist.targetDurationTag.map Tag.id,
         p.tags.length)) =
      .ok (some 3, .finite 2, some 0, 4) := by
  rfl

/-! ### Claim C9 - header acceptance -/

/-- An input whose first line carries the header token followed by a
blank and trailing junk: not exactly the header token. -/
def junkHeaderDoc : Str := strLit "#EXTM3U junk\n#EXT-X-TARGETDURATION:6"

/-- Spec-side reading of the header rule: the first line is exactly the
header token `#EXTM3U`, or the token followed by a blank, a tab or a
line break (the latter cannot occur after splitting). -/
def headerLineOk (l : Str) : Bool :=
  l == strLit "#EXTM3U" || (strLit "#EXTM3U ").isPrefixOf l ||
  (strLit "#EXTM3U\t").isPrefixOf l || (strLit "#EXTM3U\n").isPrefixOf l

/-- The source's header pattern and the spec-side reading agree on
every line. -/
theorem headerMatches_eq_headerLineOk (l : Str) :
    headerMatches l = headerLineOk l := by
  by_cases hp : (strLit "#EXTM3U").isPrefixOf l = true
  · obtain ⟨t, rfl⟩ := List.isPrefixOf_iff_prefix.mp hp
    have hdrop : (strLit "#EXTM3U" ++ t).drop 7 = t := by
      rw [show (7 : Nat) = (strLit "#EXTM3U").length from rfl]
      exact List.drop_left _ t
    unfold headerMatches headerLineOk
    rw [hp, hdrop]
    cases t with
    | nil =>
      have : (strLit "#EXTM3U" ++ [] == strLit "#EXTM3U") = true := by
        simp
      simp [this]
    | cons c ct =>
      have hne : (strLit "#EXTM3U" ++ c :: ct == strLit "#EXTM3U") = false := by
        simp only [beq_eq_false_iff_ne, ne_eq]
        intro hcontra
        have := congrArg List.length hcontra
        simp [strLit] at this
      have hsp : ∀ d : Char, (strLit "#EXTM3U" ++ [d]).isPrefixOf (strLit "#EXTM3U" ++ c :: ct) =
          (c == d) := by
        intro d
        by_cases hcd : c = d
        · subst hcd
          simp only [beq_self_eq_true]
          exact List.isPrefixOf_iff_prefix.mpr ⟨ct, by simp⟩
        · have : (c == d) = false := by simp [hcd]
          rw [this]
          cases hq : (strLit "#EXTM3U" ++ [d]).isPrefixOf (strLit "#EXTM3U" ++ c :: ct)
          · rfl
          · exfalso
            obtain ⟨u, hu⟩ := List.isPrefixOf_iff_prefix.mp hq
            rw [List.append_assoc] at hu
            have := List.append_cancel_left hu
            simp at this
            exact hcd this.1.symm
      have h1 := hsp ' '
      have h2 := hsp '\t'
      have h3 := hsp '\n'
      have e1 : strLit "#EXTM3U" ++ [' '] = strLit "#EXTM3U " := by rfl
      have e2 : strLit "#EXTM3U" ++ ['\t'] = strLit "#EXTM3U\t" := by rfl
      have e3 : strLit "#EXTM3U" ++ ['\n'] = strLit "#EXTM3U\n" := by rfl
      rw [e1] at h1; rw [e2] at h2; rw [e3] at h3
      rw [hne, h1, h2, h3]
      simp [Bool.beq_comm]
  · have hf : (strLit "#EXTM3U").isPrefixOf l = false := by
      cases hb : (strLit "#EXTM3U").isPrefixOf l
      · rfl
      · exact absurd hb hp
    have hpre : ∀ (c : Char), (strLit "#EXTM3U" ++ [c]).isPrefixOf l = false := by
      intro c
      cases hq : (strLit "#EXTM3U" ++ [c]).isPrefixOf l
      · rfl
      · exfalso
        have := (List.prefix_append (strLit "#EXTM3U") [c]).trans
          (List.isPrefixOf_iff_prefix.mp hq)
        rw [← List.isPrefixOf_iff_prefix] at this
        rw [this] at hf
        exact Bool.noConfusion hf
    have hne : (l == strLit "#EXTM3U") = false := by
      simp only [beq_eq_false_iff_ne, ne_eq]
      rintro rfl
      have : (strLit "#EXTM3U").isPrefixOf (strLit "#EXTM3U") = true := by rfl
      rw [this] at hf
      exact Bool.noConfusion hf
    unfold headerMatches headerLineOk
    have g1 : strLit "#EXTM3U " = strLit "#EXTM3U" ++ [' '] := by rfl
    have g2 : strLit "#EXTM3U\t" = strLit "#EXTM3U" ++ ['\t'] := by rfl
    have g3 : strLit "#EXTM3U\n" = strLit "#EXTM3U" ++ ['\n'] := by rfl
    rw [hf, hne, g1, g2, g3, hpre ' ', hpre '\t', hpre '\n']
    rfl

/-- The scanning loop never throws the missing-header error: that code
is thrown only by the header check before the loop starts. -/
theorem scanLoop_ne_missingHeader :
    ∀ (lines : List Str) (st : ScanState),
      ¬ scanLoop lines st = .error .missingHeader := by
  intro lines
  induction lines with
  | nil => intro st h; exact Except.noConfusion h
  | cons line rest ih =>
    intro st h
    rw [scanLoop] at h
    by_cases hskip : (isComment line || st.skip) = true
    · rw [if_pos hskip] at h
      exact ih _ h
    · rw [if_neg hskip] at h
      cases hpt : parseTag st.nextId line with
      | error e =>
        rw [hpt] at h
        dsimp only at h
        have he := parseTag_error_shape _ _ _ hpt
        rw [he] at h
        cases h
      | ok tag =>
        rw [hpt] at h
        dsimp only at h
        by_cases hseg : SEGMENT_TAGS.contains tag.name = true
        · rw [if_pos hseg] at h
          by_cases hm : (detectType st tag).1 = .MEDIA
          · rw [if_neg (by simpa using hm)] at h
            exact Except.noConfusion h
          · rw [if_pos hm] at h
            cases h
        · rw [if_neg hseg] at h
          exact ih _ h

/-- C9, amended: parsePlaylist fails with MissingHeader exactly when
the first line of the normalized, trimmed, split input does not begin
with the header token `#EXTM3U` followed by the end of the line, a
blank or a tab (so a line carrying trailing text after a blank is
accepted, not only the exact token); the Except result carries no
Playlist in that case by construction. -/
theorem c9_missing_header_iff (data : Str) :
    parsePlaylist data = .error .missingHeader ↔
      headerLineOk ((splitLines (jsTrim (normalizeNewlines data))).headD []) = false := by
  simp only [parsePlaylist]
  rw [← headerMatches_eq_headerLineOk]
  by_cases hh : headerMatches ((splitLines (jsTrim (normalizeNewlines data))).headD []) = true
  · simp only [hh, Bool.not_true, Bool.false_eq_true, if_false]
    constructor
    · intro hc
      exact absurd hc (scanLoop_ne_missingHeader _ _)
    · intro hc
      exact Bool.noConfusion hc
  · have hf : headerMatches ((splitLines (jsTrim (normalizeNewlines data))).headD []) = false := by
      cases hb : headerMatches ((splitLines (jsTrim (normalizeNewlines data))).headD [])
      · rfl
      · exact absurd hb hh
    simp only [hf, Bool.not_false, if_true]

/-! ### Claim C8 - the invalid-hierarchy rule -/

/-- Spec-side mirror of the scanning control flow that records exactly
whether a segment-classified directive is reached while the detected
playlist type is not MEDIA (the state advances through `scanAdvance`,
shared with the parser; a malformed line aborts the scan before any
later directive is reached, so it yields false here as it yields a
different error there). -/
def hierarchyViolationLoop : List Str → ScanState → Bool
  | [], _ => false
  | line :: rest, st =>
    if isComment line || st.skip then hierarchyViolationLoop rest { st with skip := false }
    else
      match parseTag st.nextId line with
      | .error _ => false
      | .ok tag =>
        if SEGMENT_TAGS.contains tag.name then
          decide ((detectType st tag).1 ≠ .MEDIA)
        else hierarchyViolationLoop rest (scanAdvance st tag rest.head?)

/-- Spec-side condition for the whole document: the header is accepted
and the scan reaches a segment-only directive while the detected type
is not MEDIA. -/
def hierarchyViolation (data : Str) : Bool :=
  let lines := splitLines (jsTrim (normalizeNewlines data))
  if !headerMatches (lines.headD []) then false
  else hierarchyViolationLoop lines initialScanState

/-- The scanning loop throws the invalid-hierarchy error exactly when
the mirror records a violation. -/
theorem scanLoop_invalidHierarchy_iff :
    ∀ (lines : List Str) (st : ScanState),
      scanLoop lines st = .error .invalidHierarchy ↔
        hierarchyViolationLoop lines st = true := by
  intro lines
  induction lines with
  | nil =>
    intro st
    constructor
    · intro h; exact Except.noConfusion h
    · intro h; exact Bool.noConfusion h
  | cons line rest ih =>
    intro st
    rw [scanLoop, hierarchyViolationLoop]
    by_cases hskip : (isComment line || st.skip) = true
    · rw [if_pos hskip, if_pos hskip]
      exact ih _
    · rw [if_neg hskip, if_neg hskip]
      cases hpt : parseTag st.nextId line with
      | error e =>
        have he := parseTag_error_shape _ _ _ hpt
        subst he
        constructor
        · intro h; cases h
        · intro h; exact Bool.noConfusion h
      | ok tag =>
        dsimp only
        by_cases hseg : SEGMENT_TAGS.contains tag.name = true
        · rw [if_pos hseg, if_pos hseg]
          by_cases hm : (detectType st tag).1 = .MEDIA
          · rw [if_neg (by simpa using hm)]
            constructor
            · intro h; exact Except.noConfusion h
            · intro h
              rw [decide_eq_true_iff] at h
              exact absurd hm h
          · rw [if_pos hm]
            constructor
            · intro _
              exact decide_eq_true hm
            · intro _; rfl
        · rw [if_neg hseg, if_neg hseg]
          exact ih _

/-- The invalid-hierarchy document of the repository's test suite: an
alternative-media declaration (detecting MASTER) followed by a
duration directive. -/
def hierDoc : Str := strLit "#EXTM3U\n#EXT-X-MEDIA:TYPE=AUDIO\n#EXTINF:6.00600"

/-- A document whose first type-relevant directive is segment-only. -/
def segFirstDoc : Str := strLit "#EXTM3U\n#EXTINF:5\nuri\n"

/-- C8: parsePlaylist fails with InvalidHierarchy exactly when a
segment-classified directive is reached while the detected playlist
type is not MEDIA; in particular a master-detected document followed
by a duration directive fails with it, while a document whose first
type-relevant directive is segment-only is classified MEDIA and
parses. -/
theorem c8_invalid_hierarchy_iff :
    (∀ data : Str,
        parsePlaylist data = .error .invalidHierarchy ↔ hierarchyViolation data = true) ∧
    parsePlaylist hierDoc = .error .invalidHierarchy ∧
    ((parsePlaylist segFirstDoc).map fun p => p.type) = .ok .MEDIA := by
  refine ⟨?_, by rfl, by rfl⟩
  intro data
  simp only [parsePlaylist, hierarchyViolation]
  by_cases hh : headerMatches ((splitLines (jsTrim (normalizeNewlines data))).headD []) = true
  · simp only [hh, Bool.not_true, Bool.false_eq_true, if_false]
    exact scanLoop_invalidHierarchy_iff _ _
  · have hf : headerMatches ((splitLines (jsTrim (normalizeNewlines data))).headD []) = false := by
      cases hb : headerMatches ((splitLines (jsTrim (normalizeNewlines data))).headD [])
      · rfl
      · exact absurd hb hh
    simp only [hf, Bool.not_false, if_true]
    constructor
    · intro h
      injection h with h2
      exact HlsError.noConfusion h2
    · intro h; exact Bool.noConfusion h

/-- C9, counterexample: the claim requires a MissingHeader failure
whenever the first non-empty line is not exactly the header token; the
header pattern `^#EXTM3U($|[ \t\n])` accepts the token followed by a
blank and arbitrary trailing text, so this input parses successfully. -/
theorem c9_counterexample :
    ((parsePlaylist junkHeaderDoc).map fun p => p.type) = .ok .MEDIA := by
  rfl



/-! ### Claim C10 - non-directive lines in playlist-scanning mode -/

/-- C10: while the scanner is in playlist-scanning mode, a non-comment
line without the `#EXT` prefix whose skip flag is not set (i.e. which
is not the line immediately following a stream-variant tag, nor the
header line) makes parsePlaylist fail with MalformedDirective citing
that line; in segment mode the same kind of line is instead consumed
as a segment URI boundary. Concretely: `#EXTM3U` followed by
`invalid tag` fails citing that line, while the masterDoc document,
whose bare URI line follows a stream-variant tag, parses. -/
theorem c10_bare_line_rules :
    (∀ (line : Str) (rest : List Str) (st : ScanState),
        st.skip = false → isComment line = false →
        (strLit "#EXT").isPrefixOf line = false →
        scanLoop (line :: rest) st = .error (.malformedDirective line)) ∧
    (∀ (line : Str) (rest : List Str) (st : SegState),
        isComment line = false →
        (strLit "#EXT").isPrefixOf line = false →
        segLoop (line :: rest) st = segLoop rest (uriStep st line)) ∧
    parsePlaylist (strLit "#EXTM3U\ninvalid tag") =
      .error (.malformedDirective (strLit "invalid tag")) ∧
    ((parsePlaylist masterDoc).map fun p => p.type) = .ok .MASTER := by
  refine ⟨?_, ?_, by rfl, by rfl⟩
  · intro line rest st hs hc hp
    rw [scanLoop]
    rw [if_neg (by simp [hs, hc])]
    rw [parseTag_err st.nextId line hp]
  · intro line rest st hc hp
    rw [segLoop]
    rw [if_neg (by simp [hp]), if_neg (by simp [hc])]

/-- C10 witness: the two universally quantified parts applied to a
concrete bare URI line in a concrete scanning state and a concrete
segment state. -/
theorem c10_bare_line_rules_witness :
    scanLoop [strLit "uri"] ⟨.MASTER, false, [], createDefaultTagIndex_, false, 0⟩ =
        .error (.malformedDirective (strLit "uri")) ∧
      segLoop [strLit "uri"]
          ⟨[], [], [], none, 0, none, createDefaultComputed_, [], createDefaultTagIndex_, 0⟩ =
        segLoop []
          (uriStep ⟨[], [], [], none, 0, none, createDefaultComputed_, [], createDefaultTagIndex_, 0⟩
            (strLit "uri")) := by
  exact ⟨c10_bare_line_rules.1 (strLit "uri") [] _ rfl (by decide) (by decide),
         c10_bare_line_rules.2.1 (strLit "uri") [] _ (by decide) (by decide)⟩

/-! ### Claim C7 - dangling partial segments at end of input -/

/-- The trailing-partial-segments document of the repository's test
suite: the final EXT-X-PART is not followed by a URI line. -/
def partialDoc : Str := strLit
  ("#EXTM3U\n#EXT-X-TARGETDURATION:6\n#EXT-X-MAP:URI=\"init.mp4\"\n#EXTINF:5\nuri\n" ++
   "#EXT-X-PART:DURATION=1,URI=\"uri2.1\"\n#EXT-X-PART:DURATION=1,URI=\"uri2.2\"\n" ++
   "#EXTINF:2\nuri2\n#EXT-X-PART:DURATION=1,URI=\"uri3.1\"\n")

/-- C7: at end of input an unflushed partial-segment list yields
exactly one additional Segment whose URI is the empty string, whose
partialSegments list holds exactly the pending partial-segment tags,
and whose computed view is rebuilt from scratch by folding
updateComputedForTag_ over that segment's own tag list (the pending
tags plus the carried map tag) starting from the default, not
inherited from the mid-loop accumulator; concretely, the trailing
partial segment of partialDoc lands in a third segment with empty URI,
only the carried map tag in its tag list, and the partial tag
attached. -/
theorem c7_dangling_partials :
    (∀ st : SegState, st.partialSegmentTags ≠ [] →
      (segLoop [] st).segments =
        st.segments ++
          [⟨[],
            (match st.currentMapTag with
             | some m => st.segmentTags ++ [m]
             | none => st.segmentTags),
            (match st.currentMapTag with
             | some m => st.segmentTags ++ [m]
             | none => st.segmentTags).foldl updateComputedForTag_ createDefaultComputed_,
            st.partialSegmentTags⟩]) ∧
    ((parsePlaylist partialDoc).map fun p =>
        (p.computed.segments.count,
         p.segments.map (·.map fun s =>
           (s.verbatimSegmentUri, s.partialSegments.map Tag.id,
            s.tags.map Tag.id, s.computed.mapId)))) =
      .ok (3, some
        [(strLit "uri", [], [3, 2], some 2),
         (strLit "uri2", [4, 5], [6, 2], some 2),
         ([], [7], [2], some 2)]) := by
  constructor
  · intro st h
    rw [show segLoop [] st = flushDangling st from rfl]
    unfold flushDangling
    have hne : st.partialSegmentTags.isEmpty = false := by
      cases hpt : st.partialSegmentTags
      · exact absurd hpt h
      · rfl
    rw [if_neg (by simp [hne])]
  · rfl

/-- C7 witness: the universally quantified part applied to a concrete
segment state holding one pending partial-segment tag and a carried
map tag. -/
theorem c7_dangling_partials_witness :
    (segLoop []
        ⟨[], [⟨2, strLit "EXTINF", [], some (strLit "5")⟩],
         [⟨3, strLit "EXT-X-PART", [], none⟩],
         some ⟨1, strLit "EXT-X-MAP", [], none⟩, 0, none,
         createDefaultComputed_, [], createDefaultTagIndex_, 4⟩).segments =
      [⟨[],
        [⟨2, strLit "EXTINF", [], some (strLit "5")⟩, ⟨1, strLit "EXT-X-MAP", [], none⟩],
        ([⟨2, strLit "EXTINF", [], some (strLit "5")⟩,
          ⟨1, strLit "EXT-X-MAP", [], none⟩] : List Tag).foldl
            updateComputedForTag_ createDefaultComputed_,
        [⟨3, strLit "EXT-X-PART", [], none⟩]⟩] := by
  exact c7_dangling_partials.1
    ⟨[], [⟨2, strLit "EXTINF", [], some (strLit "5")⟩],
     [⟨3, strLit "EXT-X-PART", [], none⟩],
     some ⟨1, strLit "EXT-X-MAP", [], none⟩, 0, none,
     createDefaultComputed_, [], createDefaultTagIndex_, 4⟩ (by decide)


/-! ### Claim C6 - the carried initialization-segment tag -/

set_option maxHeartbeats 1000000 in
/-- A tag whose name is not the initialization-segment name leaves the
computed map slot untouched. -/
theorem updateComputed_map_of_ne (c : SegmentComputed) (t : Tag)
    (hn : t.name ≠ strLit "EXT-X-MAP") :
    (updateComputedForTag_ c t).map = c.map := by
  unfold updateComputedForTag_
  split_ifs <;> rfl

set_option maxHeartbeats 2000000 in
/-- Folding an initialization-segment tag into the computed view sets
the map slot when it is empty and keeps it otherwise. -/
theorem updateComputed_map_tag (c : SegmentComputed) (i : Nat) (a : List Attribute)
    (v : Option Str) :
    updateComputedForTag_ c ⟨i, strLit "EXT-X-MAP", a, v⟩ =
      (if c.map.isNone = true
       then { c with map := some ⟨i, strLit "EXT-X-MAP", a, v⟩, mapId := some i }
       else c) := by
  rfl

/-- Folding a list of tags free of the initialization-segment name
never changes the map slot. -/
theorem foldl_updateComputed_map_of_ne :
    ∀ (xs : List Tag) (c : SegmentComputed),
      (∀ t ∈ xs, t.name ≠ strLit "EXT-X-MAP") →
      (xs.foldl updateComputedForTag_ c).map = c.map := by
  intro xs
  induction xs with
  | nil => intro c _; rfl
  | cons x xt ih =>
    intro c h
    rw [List.foldl_cons, ih _ (fun t ht => h t (List.mem_cons_of_mem x ht)),
      updateComputed_map_of_ne c x (h x (List.mem_cons_self x xt))]

/-- The tag id only lands in the result of parseTag; name, attributes
and value do not depend on it. -/
theorem parseTag_shift (id : Nat) (w : Str) :
    parseTag id w = (parseTag 0 w).map fun t => { t with id := id } := by
  unfold parseTag
  cases hb : parseTagBlocks w with
  | none => rfl
  | some nd =>
    obtain ⟨name, dataOpt⟩ := nd
    cases dataOpt with
    | none => rfl
    | some data =>
      cases data with
      | nil => rfl
      | cons c cs =>
        dsimp only
        cases readValue (c :: cs) <;> rfl

/-- A line that sets the carried map: an initialization-segment
directive or a preload hint whose TYPE attribute marks a map. -/
def lineIsMapSetting (l : Str) : Bool :=
  match parseTag 0 l with
  | .ok t =>
    t.name == strLit "EXT-X-MAP" ||
    (t.name == strLit "EXT-X-PRELOAD-HINT" &&
      t.getAttributeValue (strLit "TYPE") == some (strLit "MAP"))
  | .error _ => false

/-- Unpacking `lineIsMapSetting = false` for a successfully parsed
line. -/
theorem lineIsMapSetting_false (line : Str) (t0 : Tag)
    (h0 : parseTag 0 line = .ok t0)
    (hf : lineIsMapSetting line = false) :
    t0.name ≠ strLit "EXT-X-MAP" ∧
      ¬(t0.name = strLit "EXT-X-PRELOAD-HINT" ∧
        t0.getAttributeValue (strLit "TYPE") = some (strLit "MAP")) := by
  unfold lineIsMapSetting at hf
  rw [h0] at hf
  simp only [Bool.or_eq_false_iff, Bool.and_eq_false_imp, beq_eq_false_iff_ne, ne_eq,
    beq_iff_eq] at hf
  exact ⟨hf.1, fun hc => absurd hc.2 (hf.2 (by simp [hc.1]))⟩

/-- Inversion of parseTag through the id shift: a successful parse with
any id comes from a successful parse with id 0 carrying the same name,
attributes and value. -/
theorem parseTag_ok_zero (id : Nat) (w : Str) (tag : Tag)
    (h : parseTag id w = .ok tag) :
    ∃ t0, parseTag 0 w = .ok t0 ∧ t0.name = tag.name ∧
      t0.attributes = tag.attributes ∧ t0.value = tag.value := by
  rw [parseTag_shift id w] at h
  cases h0 : parseTag 0 w with
  | error e => rw [h0] at h; exact Except.noConfusion h
  | ok t0 =>
    rw [h0] at h
    injection h with h1
    exact ⟨t0, rfl, by rw [← h1], by rw [← h1], by rw [← h1]⟩

/-- getAttributeValue only looks at the attribute list. -/
theorem getAttributeValue_congr (t u : Tag) (n : Str)
    (h : t.attributes = u.attributes) :
    t.getAttributeValue n = u.getAttributeValue n := by
  unfold Tag.getAttributeValue Tag.getAttribute
  rw [h]

/-- The carried-map invariant for the weak conclusion: the carried tag
exists and bears the initialization-segment name (which holds as soon
as a map directive or a MAP-typed preload hint has been processed). -/
def CarriedInv (st : SegState) : Prop :=
  ∃ m, st.currentMapTag = some m ∧ m.name = strLit "EXT-X-MAP"

/-- The directive step preserves the carried-map invariant and emits no
segment. -/
theorem segTagStep_carried (st : SegState) (line : Str) (h : CarriedInv st) :
    CarriedInv (segTagStep st line) ∧ (segTagStep st line).segments = st.segments := by
  unfold segTagStep
  cases hpt : parseTag st.nextId line with
  | error e => exact ⟨h, rfl⟩
  | ok tag =>
    dsimp only
    by_cases h1 : MEDIA_PLAYLIST_TAGS.contains tag.name = true
    · rw [if_pos h1]; exact ⟨h, rfl⟩
    · rw [if_neg h1]
      by_cases h2 : tag.name = strLit "EXT-X-MAP"
      · rw [if_pos h2]
        exact ⟨⟨tag, rfl, h2⟩, rfl⟩
      · rw [if_neg h2]
        by_cases h3 : tag.name = strLit "EXT-X-PART"
        · rw [if_pos h3]; exact ⟨h, rfl⟩
        · rw [if_neg h3]
          by_cases h4 : tag.name = strLit "EXT-X-PRELOAD-HINT"
          · rw [if_pos h4]
            by_cases h5 : tag.getAttributeValue (strLit "TYPE") = some (strLit "PART")
            · rw [if_pos h5]; exact ⟨h, rfl⟩
            · rw [if_neg h5]
              by_cases h6 : tag.getAttributeValue (strLit "TYPE") = some (strLit "MAP")
              · rw [if_pos h6]
                exact ⟨⟨{ tag with name := strLit "EXT-X-MAP" }, rfl, rfl⟩, rfl⟩
              · rw [if_neg h6]; exact ⟨h, rfl⟩
          · rw [if_neg h4]; exact ⟨h, rfl⟩

/-- C6 part one engine: once a map-named tag is carried, every segment
the loop emits from that point on has a non-null computed map. -/
theorem segLoop_carried_map :
    ∀ (lines : List Str) (st : SegState), CarriedInv st →
      ∀ s ∈ (segLoop lines st).segments, s ∈ st.segments ∨ s.computed.map.isSome = true := by
  intro lines
  induction lines with
  | nil =>
    intro st h s hs
    obtain ⟨m, hm, hname⟩ := h
    rw [show segLoop [] st = flushDangling st from rfl] at hs
    unfold flushDangling at hs
    by_cases hp : st.partialSegmentTags.isEmpty = true
    · rw [if_pos hp] at hs
      exact Or.inl hs
    · rw [if_neg hp] at hs
      dsimp only at hs
      rw [hm] at hs
      rcases List.mem_append.mp hs with hl | hr
      · exact Or.inl hl
      · right
        rw [List.mem_singleton.mp hr]
        dsimp only
        obtain ⟨i, nm, a, v⟩ := m
        dsimp only at hname
        subst hname
        rw [List.foldl_append, List.foldl_cons, List.foldl_nil, updateComputed_map_tag]
        by_cases hmn :
            ((st.segmentTags.foldl updateComputedForTag_ createDefaultComputed_).map).isNone = true
        · rw [if_pos hmn]; rfl
        · rw [if_neg hmn]
          cases hmm : (st.segmentTags.foldl updateComputedForTag_ createDefaultComputed_).map
          · rw [hmm] at hmn; exact absurd rfl hmn
          · rfl
  | cons line rest ih =>
    intro st h s hs
    rw [segLoop] at hs
    by_cases h1 : (strLit "#EXT").isPrefixOf line = true
    · rw [if_pos h1] at hs
      obtain ⟨hinv, hsegs⟩ := segTagStep_carried st line h
      rcases ih _ hinv s hs with hl | hr
      · rw [hsegs] at hl; exact Or.inl hl
      · exact Or.inr hr
    · rw [if_neg h1] at hs
      by_cases h2 : isComment line = true
      · rw [if_pos h2] at hs
        exact ih _ h s hs
      · rw [if_neg h2] at hs
        obtain ⟨m, hm, hname⟩ := h
        have hcarried : CarriedInv (uriStep st line) := ⟨m, hm, hname⟩
        rcases ih _ hcarried s hs with hl | hr
        · unfold uriStep at hl
          dsimp only at hl
          rcases List.mem_append.mp hl with hll | hlr
          · exact Or.inl hll
          · right
            rw [List.mem_singleton.mp hlr]
            dsimp only
            rw [hm]
            cases hcm : st.computed.map
            · rfl
            · rw [hcm]; rfl
        · exact Or.inr hr

/-- The strong carried-map invariant for the supersession-free
conclusion: a specific map-named tag is carried, the pending computed
map is still empty, and no pending segment tag bears the map name. -/
def MapInv (m : Tag) (st : SegState) : Prop :=
  st.currentMapTag = some m ∧ st.computed.map = none ∧
    ∀ t ∈ st.segmentTags, t.name ≠ strLit "EXT-X-MAP"

/-- The directive step on a line that does not set a new map preserves
the strong invariant and emits no segment. -/
theorem segTagStep_mapInv (st : SegState) (line : Str) (m : Tag)
    (hline : lineIsMapSetting line = false) (hinv : MapInv m st) :
    MapInv m (segTagStep st line) ∧ (segTagStep st line).segments = st.segments := by
  obtain ⟨hcur, hcm, htags⟩ := hinv
  unfold segTagStep
  cases hpt : parseTag st.nextId line with
  | error e => exact ⟨⟨hcur, hcm, htags⟩, rfl⟩
  | ok tag =>
    dsimp only
    obtain ⟨t0, h0, hname0, hattr0, hval0⟩ := parseTag_ok_zero _ _ _ hpt
    obtain ⟨hnm0, hpm0⟩ := lineIsMapSetting_false line _ h0 hline
    have hnm : tag.name ≠ strLit "EXT-X-MAP" := by rw [← hname0]; exact hnm0
    have hpm : ¬(tag.name = strLit "EXT-X-PRELOAD-HINT" ∧
        tag.getAttributeValue (strLit "TYPE") = some (strLit "MAP")) := by
      intro hc
      exact hpm0 ⟨by rw [hname0]; exact hc.1,
        by rw [getAttributeValue_congr t0 tag _ hattr0]; exact hc.2⟩
    by_cases h1 : MEDIA_PLAYLIST_TAGS.contains tag.name = true
    · rw [if_pos h1]; exact ⟨⟨hcur, hcm, htags⟩, rfl⟩
    · rw [if_neg h1]
      rw [if_neg hnm]
      by_cases h3 : tag.name = strLit "EXT-X-PART"
      · rw [if_pos h3]
        refine ⟨⟨hcur, ?_, htags⟩, rfl⟩
        dsimp only
        rw [updateComputed_map_of_ne _ _ hnm]
        exact hcm
      · rw [if_neg h3]
        by_cases h4 : tag.name = strLit "EXT-X-PRELOAD-HINT"
        · rw [if_pos h4]
          by_cases h5 : tag.getAttributeValue (strLit "TYPE") = some (strLit "PART")
          · rw [if_pos h5]
            refine ⟨⟨hcur, ?_, htags⟩, rfl⟩
            dsimp only
            rw [updateComputed_map_of_ne _ _ hnm]
            exact hcm
          · rw [if_neg h5]
            rw [if_neg (fun h6 => hpm ⟨h4, h6⟩)]
            refine ⟨⟨hcur, ?_, htags⟩, rfl⟩
            dsimp only
            rw [updateComputed_map_of_ne _ _ hnm]
            exact hcm
        · rw [if_neg h4]
          refine ⟨⟨hcur, ?_, ?_⟩, rfl⟩
          · dsimp only
            rw [updateComputed_map_of_ne _ _ hnm]
            exact hcm
          · intro t ht
            rcases List.mem_append.mp ht with htl | htr
            · exact htags t htl
            · rw [List.mem_singleton.mp htr]
              exact hnm

/-- C6 part two engine: while no further line sets a new map, every
emitted segment's computed map is exactly the carried tag. -/
theorem segLoop_carried_map_eq :
    ∀ (lines : List Str) (st : SegState) (m : Tag),
      MapInv m st → m.name = strLit "EXT-X-MAP" →
      (∀ l ∈ lines, lineIsMapSetting l = false) →
      ∀ s ∈ (segLoop lines st).segments, s ∈ st.segments ∨ s.computed.map = some m := by
  intro lines
  induction lines with
  | nil =>
    intro st m hinv hname _ s hs
    obtain ⟨hcur, hcm, htags⟩ := hinv
    rw [show segLoop [] st = flushDangling st from rfl] at hs
    unfold flushDangling at hs
    by_cases hp : st.partialSegmentTags.isEmpty = true
    · rw [if_pos hp] at hs
      exact Or.inl hs
    · rw [if_neg hp] at hs
      dsimp only at hs
      rw [hcur] at hs
      rcases List.mem_append.mp hs with hl | hr
      · exact Or.inl hl
      · right
        rw [List.mem_singleton.mp hr]
        dsimp only
        obtain ⟨i, nm, a, v⟩ := m
        dsimp only at hname
        subst hname
        rw [List.foldl_append, List.foldl_cons, List.foldl_nil, updateComputed_map_tag]
        rw [if_pos (by rw [foldl_updateComputed_map_of_ne _ _ htags]; rfl)]
  | cons line rest ih =>
    intro st m hinv hname hlines s hs
    rw [segLoop] at hs
    by_cases h1 : (strLit "#EXT").isPrefixOf line = true
    · rw [if_pos h1] at hs
      obtain ⟨hinv2, hsegs⟩ :=
        segTagStep_mapInv st line m (hlines line (List.mem_cons_self line rest)) hinv
      rcases ih _ _ hinv2 hname (fun l hl => hlines l (List.mem_cons_of_mem line hl)) s hs with
        hl | hr
      · rw [hsegs] at hl; exact Or.inl hl
      · exact Or.inr hr
    · rw [if_neg h1] at hs
      by_cases h2 : isComment line = true
      · rw [if_pos h2] at hs
        exact ih _ _ hinv hname (fun l hl => hlines l (List.mem_cons_of_mem line hl)) s hs
      · rw [if_neg h2] at hs
        obtain ⟨hcur, hcm, htags⟩ := hinv
        have hinv2 : MapInv m (uriStep st line) := by
          refine ⟨hcur, rfl, ?_⟩
          intro t ht
          exact absurd ht (List.not_mem_nil t)
        rcases ih _ _ hinv2 hname (fun l hl => hlines l (List.mem_cons_of_mem line hl)) s hs with
          hl | hr
        · unfold uriStep at hl
          dsimp only at hl
          rcases List.mem_append.mp hl with hll | hlr
          · exact Or.inl hll
          · right
            rw [List.mem_singleton.mp hlr]
            dsimp only
            rw [hcm, hcur]
        · exact Or.inr hr

/-- A document in which an initialization-segment tag is carried across
two segment boundaries with no intervening map directive, and a later
explicit map tag inside the third segment's own tag run supersedes the
carried one. -/
def mapDoc : Str := strLit
  ("#EXTM3U\n#EXT-X-MAP:URI=\"init1.mp4\"\n#EXTINF:5\nuri1\n#EXTINF:5\nuri2\n" ++
   "#EXT-X-MAP:URI=\"init2.mp4\"\n#EXTINF:5\nuri3\n")

/-- A document in which a MAP-typed preload hint supersedes the carried
map for the following segments. -/
def preloadMapDoc : Str := strLit
  ("#EXTM3U\n#EXT-X-MAP:URI=\"i1\"\n#EXTINF:5\nu1\n" ++
   "#EXT-X-PRELOAD-HINT:TYPE=MAP,URI=\"i2\"\n#EXTINF:5\nu2\nu3\n")

/-- C6: (1) once a map-named tag is carried, every segment emitted from
that point on - across any number of boundaries, the final dangling
one included - has a non-null computed map; (2) while no further line
is an initialization-segment directive or MAP-typed preload hint,
every emitted segment's computed map is exactly the carried tag; (3)
concretely, in mapDoc the map with id 1 is carried to segments 1 and 2
and the explicit map tag (id 4) inside segment 3's own run supersedes
it, and in preloadMapDoc the renamed MAP-typed preload hint (id 3)
supersedes the initial map (id 1) for both following segments. -/
theorem c6_carried_map :
    (∀ (lines : List Str) (st : SegState), CarriedInv st →
      ∀ s ∈ (segLoop lines st).segments, s ∈ st.segments ∨ s.computed.map.isSome = true) ∧
    (∀ (lines : List Str) (st : SegState) (m : Tag),
      MapInv m st → m.name = strLit "EXT-X-MAP" →
      (∀ l ∈ lines, lineIsMapSetting l = false) →
      ∀ s ∈ (segLoop lines st).segments, s ∈ st.segments ∨ s.computed.map = some m) ∧
    ((parsePlaylist mapDoc).map fun p =>
        p.segments.map (·.map fun s => s.computed.mapId)) =
      .ok (some [some 1, some 1, some 4]) ∧
    ((parsePlaylist preloadMapDoc).map fun p =>
        p.segments.map (·.map fun s =>
          (s.computed.mapId, s.computed.map.map Tag.name))) =
      .ok (some [(some 1, some (strLit "EXT-X-MAP")),
                 (some 3, some (strLit "EXT-X-MAP")),
                 (some 3, some (strLit "EXT-X-MAP"))]) := by
  exact ⟨segLoop_carried_map, segLoop_carried_map_eq, by rfl, by rfl⟩

/-- C6 witness: both universally quantified parts applied to a concrete
state carrying a concrete map tag over two concrete URI lines. -/
theorem c6_carried_map_witness :
    (∀ s ∈ (segLoop [strLit "u1", strLit "u2"]
        ⟨[], [], [], some ⟨1, strLit "EXT-X-MAP", [], none⟩, 0, none,
         createDefaultComputed_, [], createDefaultTagIndex_, 2⟩).segments,
      s ∈ ([] : List Segment) ∨ s.computed.map.isSome = true) ∧
    (∀ s ∈ (segLoop [strLit "u1", strLit "u2"]
        ⟨[], [], [], some ⟨1, strLit "EXT-X-MAP", [], none⟩, 0, none,
         createDefaultComputed_, [], createDefaultTagIndex_, 2⟩).segments,
      s ∈ ([] : List Segment) ∨ s.computed.map = some ⟨1, strLit "EXT-X-MAP", [], none⟩) := by
  constructor
  · exact c6_carried_map.1 [strLit "u1", strLit "u2"] _
      ⟨⟨1, strLit "EXT-X-MAP", [], none⟩, rfl, rfl⟩
  · exact c6_carried_map.2.1 [strLit "u1", strLit "u2"] _ ⟨1, strLit "EXT-X-MAP", [], none⟩
      ⟨rfl, rfl, fun t ht => absurd ht (List.not_mem_nil t)⟩ rfl
      (by intro l hl; fin_cases hl <;> rfl)


/-! ### Claim C4 - single-valued tag slots -/

/-- Name test for tags, as used by the slot characterization. -/
def isNamed (n : Str) (t : Tag) : Bool := t.name == n

/-- find? over a singleton whose element satisfies the test. -/
theorem find?_singleton_pos {q : Tag → Bool} {t : Tag} (h : q t = true) :
    [t].find? q = some t := by
  simp [List.find?, h]

/-- find? over a singleton whose element fails the test. -/
theorem find?_singleton_neg {q : Tag → Bool} {t : Tag} (h : q t = false) :
    [t].find? q = none := by
  simp [List.find?, h]

/-- filter over a singleton whose element satisfies the test. -/
theorem filter_singleton_pos {q : Tag → Bool} {t : Tag} (h : q t = true) :
    [t].filter q = [t] := by
  simp [List.filter, h]

/-- filter over a singleton whose element fails the test. -/
theorem filter_singleton_neg {q : Tag → Bool} {t : Tag} (h : q t = false) :
    [t].filter q = [] := by
  simp [List.filter, h]

/-- isNamed is false when the names differ. -/
theorem isNamed_false_of_ne {n : Str} {t : Tag} (h : ¬ t.name = n) :
    isNamed n t = false := by
  simp [isNamed, h]

/-- The document-level characterization of the single-valued slots of
the playlist tag index: the six guarded slots hold the first tag of
their name in the raw tag list, the skip slot holds the last. -/
def slotInv (tags : List Tag) (idx : PlaylistComputed) : Prop :=
  idx.endListTag = tags.find? (isNamed (strLit "EXT-X-ENDLIST")) ∧
  idx.serverControlTag = tags.find? (isNamed (strLit "EXT-X-SERVER-CONTROL")) ∧
  idx.playlistTypeTag = tags.find? (isNamed (strLit "EXT-X-PLAYLIST-TYPE")) ∧
  idx.startTag = tags.find? (isNamed (strLit "EXT-X-START")) ∧
  idx.partInfTag = tags.find? (isNamed (strLit "EXT-X-PART-INF")) ∧
  idx.targetDurationTag = tags.find? (isNamed (strLit "EXT-X-TARGETDURATION")) ∧
  idx.skipTag = (tags.filter (isNamed (strLit "EXT-X-SKIP"))).getLast?

/-- The empty index satisfies the characterization. -/
theorem slotInv_init : slotInv [] createDefaultTagIndex_ :=
  ⟨rfl, rfl, rfl, rfl, rfl, rfl, rfl⟩

/-- Appending a tag that is named after none of the seven slots, into
an index whose seven slot fields are untouched, preserves the
characterization. -/
theorem slotInv_untouched (tags : List Tag) (idx idx2 : PlaylistComputed) (t : Tag)
    (h : slotInv tags idx)
    (fe : idx2.endListTag = idx.endListTag)
    (fsc : idx2.serverControlTag = idx.serverControlTag)
    (fpt : idx2.playlistTypeTag = idx.playlistTypeTag)
    (fst : idx2.startTag = idx.startTag)
    (fpi : idx2.partInfTag = idx.partInfTag)
    (ftd : idx2.targetDurationTag = idx.targetDurationTag)
    (fsk : idx2.skipTag = idx.skipTag)
    (qe : isNamed (strLit "EXT-X-ENDLIST") t = false)
    (qsc : isNamed (strLit "EXT-X-SERVER-CONTROL") t = false)
    (qpt : isNamed (strLit "EXT-X-PLAYLIST-TYPE") t = false)
    (qst : isNamed (strLit "EXT-X-START") t = false)
    (qpi : isNamed (strLit "EXT-X-PART-INF") t = false)
    (qtd : isNamed (strLit "EXT-X-TARGETDURATION") t = false)
    (qsk : isNamed (strLit "EXT-X-SKIP") t = false) :
    slotInv (tags ++ [t]) idx2 := by
  obtain ⟨h1, h2, h3, h4, h5, h6, h7⟩ := h
  refine ⟨?_, ?_, ?_, ?_, ?_, ?_, ?_⟩
  · rw [List.find?_append, find?_singleton_neg qe, Option.or_none, fe, h1]
  · rw [List.find?_append, find?_singleton_neg qsc, Option.or_none, fsc, h2]
  · rw [List.find?_append, find?_singleton_neg qpt, Option.or_none, fpt, h3]
  · rw [List.find?_append, find?_singleton_neg qst, Option.or_none, fst, h4]
  · rw [List.find?_append, find?_singleton_neg qpi, Option.or_none, fpi, h5]
  · rw [List.find?_append, find?_singleton_neg qtd, Option.or_none, ftd, h6]
  · rw [List.filter_append, filter_singleton_neg qsk, List.append_nil, fsk, h7]

/-- Appending a tag named after one of the six guarded slots preserves
the characterization: stated here for a guarded slot update in the
abstract, used by the per-name cases below. -/
theorem slotInv_guarded_aux (tags : List Tag) (t : Tag)
    (n : Str) (hn : t.name = n)
    (old : Option Tag) (h : old = tags.find? (isNamed n)) :
    (if old.isNone = true then (some t : Option Tag) else old) =
      (tags ++ [t]).find? (isNamed n) := by
  rw [List.find?_append, ← h]
  cases old with
  | none =>
    rw [find?_singleton_pos (by simp [isNamed, hn])]
    rfl
  | some x => rfl


set_option maxHeartbeats 4000000 in
/-- Folding one tag into the index preserves the slot
characterization: the six guarded slots keep their first occupant, the
skip slot takes every newcomer of its name, and tags of any other name
leave all seven slots alone. -/
theorem slotInv_snoc (tags : List Tag) (idx : PlaylistComputed) (t : Tag)
    (h : slotInv tags idx) :
    slotInv (tags ++ [t]) (updateTagIndexForTag_ idx t) := by
  obtain ⟨h1, h2, h3, h4, h5, h6, h7⟩ := h
  by_cases hn0 : t.name = strLit "EXT-X-MEDIA-SEQUENCE"
  · obtain ⟨i, nmv, a, v⟩ := t
    dsimp only at hn0
    subst hn0
    exact slotInv_untouched tags idx _ _ ⟨h1, h2, h3, h4, h5, h6, h7⟩
      rfl rfl rfl rfl rfl rfl rfl rfl rfl rfl rfl rfl rfl rfl
  by_cases hn1 : t.name = strLit "EXT-X-SKIP"
  · obtain ⟨i, nmv, a, v⟩ := t
    dsimp only at hn1
    subst hn1
    refine ⟨?_, ?_, ?_, ?_, ?_, ?_, ?_⟩
    · rw [show (updateTagIndexForTag_ idx ⟨i, strLit "EXT-X-SKIP", a, v⟩).endListTag = idx.endListTag from rfl,
        List.find?_append,
        find?_singleton_neg (show isNamed (strLit "EXT-X-ENDLIST") ⟨i, strLit "EXT-X-SKIP", a, v⟩ = false from rfl),
        Option.or_none]
      exact h1
    · rw [show (updateTagIndexForTag_ idx ⟨i, strLit "EXT-X-SKIP", a, v⟩).serverControlTag = idx.serverControlTag from rfl,
        List.find?_append,
        find?_singleton_neg (show isNamed (strLit "EXT-X-SERVER-CONTROL") ⟨i, strLit "EXT-X-SKIP", a, v⟩ = false from rfl),
        Option.or_none]
      exact h2
    · rw [show (updateTagIndexForTag_ idx ⟨i, strLit "EXT-X-SKIP", a, v⟩).playlistTypeTag = idx.playlistTypeTag from rfl,
        List.find?_append,
        find?_singleton_neg (show isNamed (strLit "EXT-X-PLAYLIST-TYPE") ⟨i, strLit "EXT-X-SKIP", a, v⟩ = false from rfl),
        Option.or_none]
      exact h3
    · rw [show (updateTagIndexForTag_ idx ⟨i, strLit "EXT-X-SKIP", a, v⟩).startTag = idx.startTag from rfl,
        List.find?_append,
        find?_singleton_neg (show isNamed (strLit "EXT-X-START") ⟨i, strLit "EXT-X-SKIP", a, v⟩ = false from rfl),
        Option.or_none]
      exact h4
    · rw [show (updateTagIndexForTag_ idx ⟨i, strLit "EXT-X-SKIP", a, v⟩).partInfTag = idx.partInfTag from rfl,
        List.find?_append,
        find?_singleton_neg (show isNamed (strLit "EXT-X-PART-INF") ⟨i, strLit "EXT-X-SKIP", a, v⟩ = false from rfl),
        Option.or_none]
      exact h5
    · rw [show (updateTagIndexForTag_ idx ⟨i, strLit "EXT-X-SKIP", a, v⟩).targetDurationTag = idx.targetDurationTag from rfl,
        List.find?_append,
        find?_singleton_neg (show isNamed (strLit "EXT-X-TARGETDURATION") ⟨i, strLit "EXT-X-SKIP", a, v⟩ = false from rfl),
        Option.or_none]
      exact h6
    · rw [show (updateTagIndexForTag_ idx ⟨i, strLit "EXT-X-SKIP", a, v⟩).skipTag = some ⟨i, strLit "EXT-X-SKIP", a, v⟩ from rfl,
        List.filter_append,
        filter_singleton_pos (show isNamed (strLit "EXT-X-SKIP") ⟨i, strLit "EXT-X-SKIP", a, v⟩ = true from rfl),
        List.getLast?_concat]
  by_cases hn2 : t.name = strLit "EXT-X-DEFINE"
  · obtain ⟨i, nmv, a, v⟩ := t
    dsimp only at hn2
    subst hn2
    exact slotInv_untouched tags idx _ _ ⟨h1, h2, h3, h4, h5, h6, h7⟩
      rfl rfl rfl rfl rfl rfl rfl rfl rfl rfl rfl rfl rfl rfl
  by_cases hn3 : t.name = strLit "EXT-X-ENDLIST"
  · obtain ⟨i, nmv, a, v⟩ := t
    dsimp only at hn3
    subst hn3
    have hc : updateTagIndexForTag_ idx ⟨i, strLit "EXT-X-ENDLIST", a, v⟩ =
        (if idx.endListTag.isNone = true
         then { idx with endListTag := some ⟨i, strLit "EXT-X-ENDLIST", a, v⟩ } else idx) := rfl
    rw [hc]
    refine ⟨?_, ?_, ?_, ?_, ?_, ?_, ?_⟩
    · rw [apply_ite (fun r : PlaylistComputed => r.endListTag)]
      dsimp only
      exact slotInv_guarded_aux tags _ _ rfl idx.endListTag h1
    · rw [apply_ite (fun r : PlaylistComputed => r.serverControlTag)]
      dsimp only
      rw [ite_self, List.find?_append,
        find?_singleton_neg (show isNamed (strLit "EXT-X-SERVER-CONTROL") ⟨i, strLit "EXT-X-ENDLIST", a, v⟩ = false from rfl),
        Option.or_none]
      exact h2
    · rw [apply_ite (fun r : PlaylistComputed => r.playlistTypeTag)]
      dsimp only
      rw [ite_self, List.find?_append,
        find?_singleton_neg (show isNamed (strLit "EXT-X-PLAYLIST-TYPE") ⟨i, strLit "EXT-X-ENDLIST", a, v⟩ = false from rfl),
        Option.or_none]
      exact h3
    · rw [apply_ite (fun r : PlaylistComputed => r.startTag)]
      dsimp only
      rw [ite_self, List.find?_append,
        find?_singleton_neg (show isNamed (strLit "EXT-X-START") ⟨i, strLit "EXT-X-ENDLIST", a, v⟩ = false from rfl),
        Option.or_none]
      exact h4
    · rw [apply_ite (fun r : PlaylistComputed => r.partInfTag)]
      dsimp only
      rw [ite_self, List.find?_append,
        find?_singleton_neg (show isNamed (strLit "EXT-X-PART-INF") ⟨i, strLit "EXT-X-ENDLIST", a, v⟩ = false from rfl),
        Option.or_none]
      exact h5
    · rw [apply_ite (fun r : PlaylistComputed => r.targetDurationTag)]
      dsimp only
      rw [ite_self, List.find?_append,
        find?_singleton_neg (show isNamed (strLit "EXT-X-TARGETDURATION") ⟨i, strLit "EXT-X-ENDLIST", a, v⟩ = false from rfl),
        Option.or_none]
      exact h6
    · rw [apply_ite (fun r : PlaylistComputed => r.skipTag)]
      dsimp only
      rw [ite_self, List.filter_append,
        filter_singleton_neg (show isNamed (strLit "EXT-X-SKIP") ⟨i, strLit "EXT-X-ENDLIST", a, v⟩ = false from rfl),
        List.append_nil]
      exact h7
  by_cases hn4 : t.name = strLit "EXT-X-SERVER-CONTROL"
  · obtain ⟨i, nmv, a, v⟩ := t
    dsimp only at hn4
    subst hn4
    have hc : updateTagIndexForTag_ idx ⟨i, strLit "EXT-X-SERVER-CONTROL", a, v⟩ =
        (if idx.serverControlTag.isNone = true
         then { idx with serverControlTag := some ⟨i, strLit "EXT-X-SERVER-CONTROL", a, v⟩ } else idx) := rfl
    rw [hc]
    refine ⟨?_, ?_, ?_, ?_, ?_, ?_, ?_⟩
    · rw [apply_ite (fun r : PlaylistComputed => r.endListTag)]
      dsimp only
      rw [ite_self, List.find?_append,
        find?_singleton_neg (show isNamed (strLit "EXT-X-ENDLIST") ⟨i, strLit "EXT-X-SERVER-CONTROL", a, v⟩ = false from rfl),
        Option.or_none]
      exact h1
    · rw [apply_ite (fun r : PlaylistComputed => r.serverControlTag)]
      dsimp only
      exact slotInv_guarded_aux tags _ _ rfl idx.serverControlTag h2
    · rw [apply_ite (fun r : PlaylistComputed => r.playlistTypeTag)]
      dsimp only
      rw [ite_self, List.find?_append,
        find?_singleton_neg (show isNamed (strLit "EXT-X-PLAYLIST-TYPE") ⟨i, strLit "EXT-X-SERVER-CONTROL", a, v⟩ = false from rfl),
        Option.or_none]
      exact h3
    · rw [apply_ite (fun r : PlaylistComputed => r.startTag)]
      dsimp only
      rw [ite_self, List.find?_append,
        find?_singleton_neg (show isNamed (strLit "EXT-X-START") ⟨i, strLit "EXT-X-SERVER-CONTROL", a, v⟩ = false from rfl),
        Option.or_none]
      exact h4
    · rw [apply_ite (fun r : PlaylistComputed => r.partInfTag)]
      dsimp only
      rw [ite_self, List.find?_append,
        find?_singleton_neg (show isNamed (strLit "EXT-X-PART-INF") ⟨i, strLit "EXT-X-SERVER-CONTROL", a, v⟩ = false from rfl),
        Option.or_none]
      exact h5
    · rw [apply_ite (fun r : PlaylistComputed => r.targetDurationTag)]
      dsimp only
      rw [ite_self, List.find?_append,
        find?_singleton_neg (show isNamed (strLit "EXT-X-TARGETDURATION") ⟨i, strLit "EXT-X-SERVER-CONTROL", a, v⟩ = false from rfl),
        Option.or_none]
      exact h6
    · rw [apply_ite (fun r : PlaylistComputed => r.skipTag)]
      dsimp only
      rw [ite_self, List.filter_append,
        filter_singleton_neg (show isNamed (strLit "EXT-X-SKIP") ⟨i, strLit "EXT-X-SERVER-CONTROL", a, v⟩ = false from rfl),
        List.append_nil]
      exact h7
  by_cases hn5 : t.name = strLit "EXT-X-PLAYLIST-TYPE"
  · obtain ⟨i, nmv, a, v⟩ := t
    dsimp only at hn5
    subst hn5
    have hc : updateTagIndexForTag_ idx ⟨i, strLit "EXT-X-PLAYLIST-TYPE", a, v⟩ =
        (if idx.playlistTypeTag.isNone = true
         then { idx with playlistTypeTag := some ⟨i, strLit "EXT-X-PLAYLIST-TYPE", a, v⟩ } else idx) := rfl
    rw [hc]
    refine ⟨?_, ?_, ?_, ?_, ?_, ?_, ?_⟩
    · rw [apply_ite (fun r : PlaylistComputed => r.endListTag)]
      dsimp only
      rw [ite_self, List.find?_append,
        find?_singleton_neg (show isNamed (strLit "EXT-X-ENDLIST") ⟨i, strLit "EXT-X-PLAYLIST-TYPE", a, v⟩ = false from rfl),
        Option.or_none]
      exact h1
    · rw [apply_ite (fun r : PlaylistComputed => r.serverControlTag)]
      dsimp only
      rw [ite_self, List.find?_append,
        find?_singleton_neg (show isNamed (strLit "EXT-X-SERVER-CONTROL") ⟨i, strLit "EXT-X-PLAYLIST-TYPE", a, v⟩ = false from rfl),
        Option.or_none]
      exact h2
    · rw [apply_ite (fun r : PlaylistComputed => r.playlistTypeTag)]
      dsimp only
      exact slotInv_guarded_aux tags _ _ rfl idx.playlistTypeTag h3
    · rw [apply_ite (fun r : PlaylistComputed => r.startTag)]
      dsimp only
      rw [ite_self, List.find?_append,
        find?_singleton_neg (show isNamed (strLit "EXT-X-START") ⟨i, strLit "EXT-X-PLAYLIST-TYPE", a, v⟩ = false from rfl),
        Option.or_none]
      exact h4
    · rw [apply_ite (fun r : PlaylistComputed => r.partInfTag)]
      dsimp only
      rw [ite_self, List.find?_append,
        find?_singleton_neg (show isNamed (strLit "EXT-X-PART-INF") ⟨i, strLit "EXT-X-PLAYLIST-TYPE", a, v⟩ = false from rfl),
        Option.or_none]
      exact h5
    · rw [apply_ite (fun r : PlaylistComputed => r.targetDurationTag)]
      dsimp only
      rw [ite_self, List.find?_append,
        find?_singleton_neg (show isNamed (strLit "EXT-X-TARGETDURATION") ⟨i, strLit "EXT-X-PLAYLIST-TYPE", a, v⟩ = false from rfl),
        Option.or_none]
      exact h6
    · rw [apply_ite (fun r : PlaylistComputed => r.skipTag)]
      dsimp only
      rw [ite_self, List.filter_append,
        filter_singleton_neg (show isNamed (strLit "EXT-X-SKIP") ⟨i, strLit "EXT-X-PLAYLIST-TYPE", a, v⟩ = false from rfl),
        List.append_nil]
      exact h7
  by_cases hn6 : t.name = strLit "EXT-X-START"
  · obtain ⟨i, nmv, a, v⟩ := t
    dsimp only at hn6
    subst hn6
    have hc : updateTagIndexForTag_ idx ⟨i, strLit "EXT-X-START", a, v⟩ =
        (if idx.startTag.isNone = true
         then { idx with startTag := some ⟨i, strLit "EXT-X-START", a, v⟩ } else idx) := rfl
    rw [hc]
    refine ⟨?_, ?_, ?_, ?_, ?_, ?_, ?_⟩
    · rw [apply_ite (fun r : PlaylistComputed => r.endListTag)]
      dsimp only
      rw [ite_self, List.find?_append,
        find?_singleton_neg (show isNamed (strLit "EXT-X-ENDLIST") ⟨i, strLit "EXT-X-START", a, v⟩ = false from rfl),
        Option.or_none]
      exact h1
    · rw [apply_ite (fun r : PlaylistComputed => r.serverControlTag)]
      dsimp only
      rw [ite_self, List.find?_append,
        find?_singleton_neg (show isNamed (strLit "EXT-X-SERVER-CONTROL") ⟨i, strLit "EXT-X-START", a, v⟩ = false from rfl),
        Option.or_none]
      exact h2
    · rw [apply_ite (fun r : PlaylistComputed => r.playlistTypeTag)]
      dsimp only
      rw [ite_self, List.find?_append,
        find?_singleton_neg (show isNamed (strLit "EXT-X-PLAYLIST-TYPE") ⟨i, strLit "EXT-X-START", a, v⟩ = false from rfl),
        Option.or_none]
      exact h3
    · rw [apply_ite (fun r : PlaylistComputed => r.startTag)]
      dsimp only
      exact slotInv_guarded_aux tags _ _ rfl idx.startTag h4
    · rw [apply_ite (fun r : PlaylistComputed => r.partInfTag)]
      dsimp only
      rw [ite_self, List.find?_append,
        find?_singleton_neg (show isNamed (strLit "EXT-X-PART-INF") ⟨i, strLit "EXT-X-START", a, v⟩ = false from rfl),
        Option.or_none]
      exact h5
    · rw [apply_ite (fun r : PlaylistComputed => r.targetDurationTag)]
      dsimp only
      rw [ite_self, List.find?_append,
        find?_singleton_neg (show isNamed (strLit "EXT-X-TARGETDURATION") ⟨i, strLit "EXT-X-START", a, v⟩ = false from rfl),
        Option.or_none]
      exact h6
    · rw [apply_ite (fun r : PlaylistComputed => r.skipTag)]
      dsimp only
      rw [ite_self, List.filter_append,
        filter_singleton_neg (show isNamed (strLit "EXT-X-SKIP") ⟨i, strLit "EXT-X-START", a, v⟩ = false from rfl),
        List.append_nil]
      exact h7
  by_cases hn7 : t.name = strLit "EXT-X-PART-INF"
  · obtain ⟨i, nmv, a, v⟩ := t
    dsimp only at hn7
    subst hn7
    have hc : updateTagIndexForTag_ idx ⟨i, strLit "EXT-X-PART-INF", a, v⟩ =
        (if idx.partInfTag.isNone = true
         then { idx with partInfTag := some ⟨i, strLit "EXT-X-PART-INF", a, v⟩ } else idx) := rfl
    rw [hc]
    refine ⟨?_, ?_, ?_, ?_, ?_, ?_, ?_⟩
    · rw [apply_ite (fun r : PlaylistComputed => r.endListTag)]
      dsimp only
      rw [ite_self, List.find?_append,
        find?_singleton_neg (show isNamed (strLit "EXT-X-ENDLIST") ⟨i, strLit "EXT-X-PART-INF", a, v⟩ = false from rfl),
        Option.or_none]
      exact h1
    · rw [apply_ite (fun r : PlaylistComputed => r.serverControlTag)]
      dsimp only
      rw [ite_self, List.find?_append,
        find?_singleton_neg (show isNamed (strLit "EXT-X-SERVER-CONTROL") ⟨i, strLit "EXT-X-PART-INF", a, v⟩ = false from rfl),
        Option.or_none]
      exact h2
    · rw [apply_ite (fun r : PlaylistComputed => r.playlistTypeTag)]
      dsimp only
      rw [ite_self, List.find?_append,
        find?_singleton_neg (show isNamed (strLit "EXT-X-PLAYLIST-TYPE") ⟨i, strLit "EXT-X-PART-INF", a, v⟩ = false from rfl),
        Option.or_none]
      exact h3
    · rw [apply_ite (fun r : PlaylistComputed => r.startTag)]
      dsimp only
      rw [ite_self, List.find?_append,
        find?_singleton_neg (show isNamed (strLit "EXT-X-START") ⟨i, strLit "EXT-X-PART-INF", a, v⟩ = false from rfl),
        Option.or_none]
      exact h4
    · rw [apply_ite (fun r : PlaylistComputed => r.partInfTag)]
      dsimp only
      exact slotInv_guarded_aux tags _ _ rfl idx.partInfTag h5
    · rw [apply_ite (fun r : PlaylistComputed => r.targetDurationTag)]
      dsimp only
      rw [ite_self, List.find?_append,
        find?_singleton_neg (show isNamed (strLit "EXT-X-TARGETDURATION") ⟨i, strLit "EXT-X-PART-INF", a, v⟩ = false from rfl),
        Option.or_none]
      exact h6
    · rw [apply_ite (fun r : PlaylistComputed => r.skipTag)]
      dsimp only
      rw [ite_self, List.filter_append,
        filter_singleton_neg (show isNamed (strLit "EXT-X-SKIP") ⟨i, strLit "EXT-X-PART-INF", a, v⟩ = false from rfl),
        List.append_nil]
      exact h7
  by_cases hn8 : t.name = strLit "EXT-X-TARGETDURATION"
  · obtain ⟨i, nmv, a, v⟩ := t
    dsimp only at hn8
    subst hn8
    have hc : updateTagIndexForTag_ idx ⟨i, strLit "EXT-X-TARGETDURATION", a, v⟩ =
        (if idx.targetDurationTag.isNone = true
         then { idx with targetDurationTag := some ⟨i, strLit "EXT-X-TARGETDURATION", a, v⟩ } else idx) := rfl
    rw [hc]
    refine ⟨?_, ?_, ?_, ?_, ?_, ?_, ?_⟩
    · rw [apply_ite (fun r : PlaylistComputed => r.endListTag)]
      dsimp only
      rw [ite_self, List.find?_append,
        find?_singleton_neg (show isNamed (strLit "EXT-X-ENDLIST") ⟨i, strLit "EXT-X-TARGETDURATION", a, v⟩ = false from rfl),
        Option.or_none]
      exact h1
    · rw [apply_ite (fun r : PlaylistComputed => r.serverControlTag)]
      dsimp only
      rw [ite_self, List.find?_append,
        find?_singleton_neg (show isNamed (strLit "EXT-X-SERVER-CONTROL") ⟨i, strLit "EXT-X-TARGETDURATION", a, v⟩ = false from rfl),
        Option.or_none]
      exact h2
    · rw [apply_ite (fun r : PlaylistComputed => r.playlistTypeTag)]
      dsimp only
      rw [ite_self, List.find?_append,
        find?_singleton_neg (show isNamed (strLit "EXT-X-PLAYLIST-TYPE") ⟨i, strLit "EXT-X-TARGETDURATION", a, v⟩ = false from rfl),
        Option.or_none]
      exact h3
    · rw [apply_ite (fun r : PlaylistComputed => r.startTag)]
      dsimp only
      rw [ite_self, List.find?_append,
        find?_singleton_neg (show isNamed (strLit "EXT-X-START") ⟨i, strLit "EXT-X-TARGETDURATION", a, v⟩ = false from rfl),
        Option.or_none]
      exact h4
    · rw [apply_ite (fun r : PlaylistComputed => r.partInfTag)]
      dsimp only
      rw [ite_self, List.find?_append,
        find?_singleton_neg (show isNamed (strLit "EXT-X-PART-INF") ⟨i, strLit "EXT-X-TARGETDURATION", a, v⟩ = false from rfl),
        Option.or_none]
      exact h5
    · rw [apply_ite (fun r : PlaylistComputed => r.targetDurationTag)]
      dsimp only
      exact slotInv_guarded_aux tags _ _ rfl idx.targetDurationTag h6
    · rw [apply_ite (fun r : PlaylistComputed => r.skipTag)]
      dsimp only
      rw [ite_self, List.filter_append,
        filter_singleton_neg (show isNamed (strLit "EXT-X-SKIP") ⟨i, strLit "EXT-X-TARGETDURATION", a, v⟩ = false from rfl),
        List.append_nil]
      exact h7
  by_cases hn9 : t.name = strLit "EXT-X-DATERANGE"
  · obtain ⟨i, nmv, a, v⟩ := t
    dsimp only at hn9
    subst hn9
    exact slotInv_untouched tags idx _ _ ⟨h1, h2, h3, h4, h5, h6, h7⟩
      rfl rfl rfl rfl rfl rfl rfl rfl rfl rfl rfl rfl rfl rfl
  by_cases hn10 : t.name = strLit "EXT-X-DISCONTINUITY-SEQUENCE"
  · obtain ⟨i, nmv, a, v⟩ := t
    dsimp only at hn10
    subst hn10
    exact slotInv_untouched tags idx _ _ ⟨h1, h2, h3, h4, h5, h6, h7⟩
      rfl rfl rfl rfl rfl rfl rfl rfl rfl rfl rfl rfl rfl rfl
  by_cases hn11 : t.name = strLit "EXT-X-MEDIA"
  · obtain ⟨i, nmv, a, v⟩ := t
    dsimp only at hn11
    subst hn11
    exact slotInv_untouched tags idx _ _ ⟨h1, h2, h3, h4, h5, h6, h7⟩
      rfl rfl rfl rfl rfl rfl rfl rfl rfl rfl rfl rfl rfl rfl
  by_cases hn12 : t.name = strLit "EXT-X-STREAM-INF"
  · obtain ⟨i, nmv, a, v⟩ := t
    dsimp only at hn12
    subst hn12
    exact slotInv_untouched tags idx _ _ ⟨h1, h2, h3, h4, h5, h6, h7⟩
      rfl rfl rfl rfl rfl rfl rfl rfl rfl rfl rfl rfl rfl rfl
  by_cases hn13 : t.name = strLit "EXT-X-IMAGE-STREAM-INF"
  · obtain ⟨i, nmv, a, v⟩ := t
    dsimp only at hn13
    subst hn13
    exact slotInv_untouched tags idx _ _ ⟨h1, h2, h3, h4, h5, h6, h7⟩
      rfl rfl rfl rfl rfl rfl rfl rfl rfl rfl rfl rfl rfl rfl
  by_cases hn14 : t.name = strLit "EXT-X-I-FRAME-STREAM-INF"
  · obtain ⟨i, nmv, a, v⟩ := t
    dsimp only at hn14
    subst hn14
    exact slotInv_untouched tags idx _ _ ⟨h1, h2, h3, h4, h5, h6, h7⟩
      rfl rfl rfl rfl rfl rfl rfl rfl rfl rfl rfl rfl rfl rfl
  by_cases hn15 : t.name = strLit "EXT-X-SESSION-KEY"
  · obtain ⟨i, nmv, a, v⟩ := t
    dsimp only at hn15
    subst hn15
    exact slotInv_untouched tags idx _ _ ⟨h1, h2, h3, h4, h5, h6, h7⟩
      rfl rfl rfl rfl rfl rfl rfl rfl rfl rfl rfl rfl rfl rfl
  by_cases hn16 : t.name = strLit "EXT-X-SESSION-DATA"
  · obtain ⟨i, nmv, a, v⟩ := t
    dsimp only at hn16
    subst hn16
    exact slotInv_untouched tags idx _ _ ⟨h1, h2, h3, h4, h5, h6, h7⟩
      rfl rfl rfl rfl rfl rfl rfl rfl rfl rfl rfl rfl rfl rfl
  by_cases hn17 : t.name = strLit "EXT-X-CONTENT-STEERING"
  · obtain ⟨i, nmv, a, v⟩ := t
    dsimp only at hn17
    subst hn17
    exact slotInv_untouched tags idx _ _ ⟨h1, h2, h3, h4, h5, h6, h7⟩
      rfl rfl rfl rfl rfl rfl rfl rfl rfl rfl rfl rfl rfl rfl
  have hc : updateTagIndexForTag_ idx t = idx := by
    unfold updateTagIndexForTag_
    rw [if_neg hn0, if_neg hn1, if_neg hn2, if_neg hn3, if_neg hn4, if_neg hn5, if_neg hn6, if_neg hn7, if_neg hn8, if_neg hn9, if_neg hn10, if_neg hn11, if_neg hn12, if_neg hn13, if_neg hn14, if_neg hn15, if_neg hn16, if_neg hn17]
  rw [hc]
  refine slotInv_untouched tags idx idx t ⟨h1, h2, h3, h4, h5, h6, h7⟩
    rfl rfl rfl rfl rfl rfl rfl
    (isNamed_false_of_ne hn3) (isNamed_false_of_ne hn4) (isNamed_false_of_ne hn5) (isNamed_false_of_ne hn6) (isNamed_false_of_ne hn7) (isNamed_false_of_ne hn8) (isNamed_false_of_ne hn1)

/-- The directive step of the segment loop preserves the slot
characterization of the playlist tag list and index (only the
media-playlist branch touches them, through a snoc plus index
update). -/
theorem segTagStep_slotInv (st : SegState) (line : Str)
    (h : slotInv st.playlistTags st.tagIndex) :
    slotInv (segTagStep st line).playlistTags (segTagStep st line).tagIndex := by
  unfold segTagStep
  cases hpt : parseTag st.nextId line with
  | error e => exact h
  | ok tag =>
    dsimp only
    by_cases h1 : MEDIA_PLAYLIST_TAGS.contains tag.name = true
    · rw [if_pos h1]
      exact slotInv_snoc _ _ _ h
    · rw [if_neg h1]
      by_cases h2 : tag.name = strLit "EXT-X-MAP"
      · rw [if_pos h2]; exact h
      · rw [if_neg h2]
        by_cases h3 : tag.name = strLit "EXT-X-PART"
        · rw [if_pos h3]; exact h
        · rw [if_neg h3]
          by_cases h4 : tag.name = strLit "EXT-X-PRELOAD-HINT"
          · rw [if_pos h4]
            by_cases h5 : tag.getAttributeValue (strLit "TYPE") = some (strLit "PART")
            · rw [if_pos h5]; exact h
            · rw [if_neg h5]
              by_cases h6 : tag.getAttributeValue (strLit "TYPE") = some (strLit "MAP")
              · rw [if_pos h6]; exact h
              · rw [if_neg h6]; exact h
          · rw [if_neg h4]; exact h

/-- The whole segment loop preserves the slot characterization. -/
theorem segLoop_slotInv :
    ∀ (lines : List Str) (st : SegState),
      slotInv st.playlistTags st.tagIndex →
      slotInv (segLoop lines st).playlistTags (segLoop lines st).tagIndex := by
  intro lines
  induction lines with
  | nil =>
    intro st h
    rw [show segLoop [] st = flushDangling st from rfl]
    unfold flushDangling
    by_cases hp : st.partialSegmentTags.isEmpty = true
    · rw [if_pos hp]; exact h
    · rw [if_neg hp]; exact h
  | cons line rest ih =>
    intro st h
    rw [segLoop]
    by_cases h1 : (strLit "#EXT").isPrefixOf line = true
    · rw [if_pos h1]
      exact ih _ (segTagStep_slotInv _ _ h)
    · rw [if_neg h1]
      by_cases h2 : isComment line = true
      · rw [if_pos h2]; exact ih _ h
      · rw [if_neg h2]; exact ih _ h

/-- The scanning loop delivers the slot characterization into the
returned playlist. -/
theorem scanLoop_slotInv :
    ∀ (lines : List Str) (st : ScanState) (p : Playlist),
      scanLoop lines st = .ok p → slotInv st.tags st.tagIndex →
      slotInv p.tags p.computed.playlist := by
  intro lines
  induction lines with
  | nil =>
    intro st p h hs
    cases h
    exact hs
  | cons line rest ih =>
    intro st p h hs
    rw [scanLoop] at h
    by_cases hskip : (isComment line || st.skip) = true
    · rw [if_pos hskip] at h
      exact ih _ _ h hs
    · rw [if_neg hskip] at h
      cases hpt : parseTag st.nextId line with
      | error e => rw [hpt] at h; exact Except.noConfusion h
      | ok tag =>
        rw [hpt] at h
        dsimp only at h
        by_cases hseg : SEGMENT_TAGS.contains tag.name = true
        · rw [if_pos hseg] at h
          by_cases hm : (detectType st tag).1 = .MEDIA
          · rw [if_neg (by simpa using hm)] at h
            cases h
            exact segLoop_slotInv _ _ hs
          · rw [if_pos hm] at h
            exact Except.noConfusion h
        · rw [if_neg hseg] at h
          exact ih _ _ h (slotInv_snoc _ _ _ hs)

/-- C4, amended: for every playlist returned by parsePlaylist, the six
guarded single-valued slots (end-list, server-control, playlist-type,
start, part-inf, target-duration) hold the first tag of their name in
the raw tag list - later duplicates are ignored for indexing though
retained in the list - while the skip slot is last-occurrence-wins:
it holds the last EXT-X-SKIP of the raw tag list, each occurrence
having overwritten the slot (and its skippedSegments value). -/
theorem c4_slot_indexing_amended (data : Str) (p : Playlist)
    (h : parsePlaylist data = .ok p) :
    slotInv p.tags p.computed.playlist := by
  simp only [parsePlaylist] at h
  by_cases hh : headerMatches ((splitLines (jsTrim (normalizeNewlines data))).headD []) = true
  · simp only [hh, Bool.not_true, Bool.false_eq_true, if_false] at h
    exact scanLoop_slotInv _ _ _ h slotInv_init
  · have hf : headerMatches ((splitLines (jsTrim (normalizeNewlines data))).headD []) = false := by
      cases hb : headerMatches ((splitLines (jsTrim (normalizeNewlines data))).headD [])
      · rfl
      · exact absurd hb hh
    rw [hf] at h
    exact Except.noConfusion h

/-- C4 witness: the amended theorem applied to the document with
duplicated target-duration and skip tags. -/
theorem c4_slot_indexing_amended_witness :
    ∃ p, parsePlaylist duplicateSlotsDoc = .ok p ∧ slotInv p.tags p.computed.playlist := by
  cases h : parsePlaylist duplicateSlotsDoc with
  | error e =>
    have hok : (parsePlaylist duplicateSlotsDoc).isOk = true := by rfl
    rw [h] at hok
    exact Bool.noConfusion hok
  | ok p => exact ⟨p, rfl, c4_slot_indexing_amended duplicateSlotsDoc p h⟩

/-! ### Claim C5 - tag serialization round trip -/

/-- takeWhile over a satisfying prefix stops exactly at the failing
terminator. -/
theorem takeWhile_all_append (p : Char → Bool) (v : Str) (d : Char) (r : Str)
    (hv : ∀ c ∈ v, p c = true) (hd : p d = false) :
    (v ++ d :: r).takeWhile p = v := by
  induction v with
  | nil => simp [List.takeWhile, hd]
  | cons x xs ih =>
    simp only [List.cons_append, List.takeWhile_cons]
    rw [hv x (List.mem_cons_self x xs)]
    simp [ih (fun c hc => hv c (List.mem_cons_of_mem x hc))]

/-- dropWhile over a satisfying prefix lands on the failing
terminator. -/
theorem dropWhile_all_append (p : Char → Bool) (v : Str) (d : Char) (r : Str)
    (hv : ∀ c ∈ v, p c = true) (hd : p d = false) :
    (v ++ d :: r).dropWhile p = d :: r := by
  induction v with
  | nil => simp [List.dropWhile, hd]
  | cons x xs ih =>
    simp only [List.cons_append, List.dropWhile_cons]
    rw [hv x (List.mem_cons_self x xs)]
    simp [ih (fun c hc => hv c (List.mem_cons_of_mem x hc))]

/-- takeWhile over an all-satisfying list keeps it whole. -/
theorem takeWhile_all_of_sat (p : Char → Bool) (v : Str)
    (hv : ∀ c ∈ v, p c = true) : v.takeWhile p = v := by
  induction v with
  | nil => rfl
  | cons x xs ih =>
    simp only [List.takeWhile_cons]
    rw [hv x (List.mem_cons_self x xs)]
    simp [ih (fun c hc => hv c (List.mem_cons_of_mem x hc))]

/-- dropWhile over an all-satisfying list drops it all. -/
theorem dropWhile_all_of_sat (p : Char → Bool) (v : Str)
    (hv : ∀ c ∈ v, p c = true) : v.dropWhile p = [] := by
  induction v with
  | nil => rfl
  | cons x xs ih =>
    simp only [List.dropWhile_cons]
    rw [hv x (List.mem_cons_self x xs)]
    simp [ih (fun c hc => hv c (List.mem_cons_of_mem x hc))]

/-- Absence of a character from a string, used by the canonicity
predicates. -/
def noChar (v : Str) (c : Char) : Bool := v.all fun d => d != c

/-- Membership consequence of noChar. -/
theorem noChar_mem {v : Str} {c : Char} (h : noChar v c = true) :
    ∀ d ∈ v, (d != c) = true :=
  List.all_eq_true.mp h

/-- Membership consequence of noChar as a disequality. -/
theorem noChar_ne {v : Str} {c : Char} (h : noChar v c = true) :
    ∀ d ∈ v, d ≠ c := by
  intro d hd
  have := noChar_mem h d hd
  simpa using this

/-- Canonically quoted attribute: nonempty name free of equals signs,
commas, blanks, tabs and line terminators, value present and free of
line terminators (a line terminator anywhere in the data part makes
the tag pattern reject the whole serialized line), no quote character
inside the value, and - when the value is numeric-looking, hence
re-emitted unquoted - no comma inside it either. -/
def canonAttr (a : Attribute) : Bool :=
  match a.value with
  | none => false
  | some w =>
    !a.name.isEmpty && noChar a.name '=' && noChar a.name ',' &&
    noChar a.name ' ' && noChar a.name '\t' &&
    (!a.name.any isLineTerm) &&
    noChar w quoteChar && (!w.any isLineTerm) &&
    (jsNumber w == JSNum.nan || noChar w ',')

/-- Canonically shaped tag: a directive-prefixed, colon-free name, a
nonempty comma-, equals- and line-terminator-free scalar value when
present, and canonically quoted attributes; such a tag serializes to a
line the tag pattern accepts. -/
def canonTag (t : Tag) : Bool :=
  (strLit "EXT").isPrefixOf t.name && noChar t.name ':' &&
  (match t.value with
   | none => true
   | some v => !v.isEmpty && noChar v ',' && noChar v '=' && !v.any isLineTerm) &&
  t.attributes.all canonAttr

/-- Comma-joined serialization of a list of items, the recursive form
of the source's join. -/
def serItems : List Str → Str
  | [] => []
  | [x] => x
  | x :: xs => x ++ ',' :: serItems xs

/-- The source's comma join equals the recursive form. -/
theorem intercalate_comma_eq_serItems :
    ∀ l : List Str, List.intercalate [','] l = serItems l := by
  intro l
  induction l with
  | nil => rfl
  | cons x xs ih =>
    cases xs with
    | nil => simp [List.intercalate, List.intersperse, serItems]
    | cons y ys =>
      rw [show serItems (x :: y :: ys) = x ++ ',' :: serItems (y :: ys) from rfl, ← ih]
      simp [List.intercalate, List.intersperse]

/-- A nonempty-name fact. -/
theorem ne_nil_of_not_isEmpty {l : Str} (h : (!l.isEmpty) = true) : l ≠ [] := by
  cases l with
  | nil => exact absurd h (by simp)
  | cons x xs => exact List.cons_ne_nil x xs

/-- Reading one attribute off its canonical serialization followed by
nothing or by a comma-led remainder recovers the attribute and leaves
the remainder after the comma. -/
theorem readAttribute_ser (a : Attribute) (t : Str) (hca : canonAttr a = true)
    (ht : t = [] ∨ ∃ r, t = ',' :: r) :
    readAttribute (attrToStr a ++ t) = some (a, t.drop 1) := by
  obtain ⟨an, av⟩ := a
  cases av with
  | none => exact absurd hca (by simp [canonAttr])
  | some w =>
    have hca' := hca
    simp only [canonAttr, Bool.and_eq_true] at hca'
    obtain ⟨⟨⟨⟨⟨⟨⟨⟨h1, h2⟩, h3⟩, h4⟩, h5⟩, hlt1⟩, h6⟩, hlt2⟩, h7⟩ := hca'
    have hkeq : ∀ s : Str, (an ++ '=' :: s).takeWhile (fun c => c != '=') = an :=
      fun s => takeWhile_all_append _ an '=' s (noChar_mem h2) (by simp)
    have hdeq : ∀ s : Str, (an ++ '=' :: s).dropWhile (fun c => c != '=') = '=' :: s :=
      fun s => dropWhile_all_append _ an '=' s (noChar_mem h2) (by simp)
    have hane : an ≠ [] := ne_nil_of_not_isEmpty h1
    by_cases hnum : jsNumber w = JSNum.nan
    · -- quoted emission
      have hwne : w ≠ [] := by
        intro hw
        rw [hw] at hnum
        exact absurd hnum (by decide)
      have hundef : emptyToUndef w = some w := by
        unfold emptyToUndef
        rw [if_neg hwne]
      have hemit : attrToStr ⟨an, some w⟩ = an ++ '=' :: (quoteChar :: (w ++ [quoteChar])) := by
        simp only [attrToStr]
        rw [show (jsNumber w != JSNum.nan) = false from by simp [hnum]]
        rfl
      have hstream : attrToStr ⟨an, some w⟩ ++ t =
          an ++ '=' :: (quoteChar :: (w ++ quoteChar :: t)) := by
        rw [hemit]
        simp
      rw [hstream]
      unfold readAttribute
      rw [hkeq, hdeq]
      rw [if_neg hane]
      dsimp only
      rw [if_pos rfl]
      rw [dropWhile_all_append _ w quoteChar t (noChar_mem h6) (by simp),
        takeWhile_all_append _ w quoteChar t (noChar_mem h6) (by simp)]
      rcases ht with rfl | ⟨r, rfl⟩
      · dsimp only
        rw [hundef]
        rfl
      · dsimp only
        rw [hundef]
        rfl
    · -- unquoted emission: the value is numeric-looking, hence comma-free
      have h8 : noChar w ',' = true := by
        rcases Bool.or_eq_true_iff.mp h7 with hx | hx
        · exact absurd (by simpa using hx) hnum
        · exact hx
      have hvq : ∀ d ∈ w, (d != ',' && d != quoteChar) = true := by
        intro d hd
        simp only [Bool.and_eq_true]
        exact ⟨noChar_mem h8 d hd, noChar_mem h6 d hd⟩
      have hemit : attrToStr ⟨an, some w⟩ = an ++ '=' :: w := by
        simp only [attrToStr]
        rw [show (jsNumber w != JSNum.nan) = true from by simp [hnum]]
        rfl
      have hstream : attrToStr ⟨an, some w⟩ ++ t = an ++ '=' :: (w ++ t) := by
        rw [hemit]
        simp
      rw [hstream]
      unfold readAttribute
      rw [hkeq, hdeq]
      rw [if_neg hane]
      rcases ht with rfl | ⟨r, rfl⟩
      · rw [List.append_nil]
        cases hw : w with
        | nil =>
          dsimp only
          unfold tryUnquoted
          rfl
        | cons c cs =>
          have hcq : ¬ c = quoteChar :=
            noChar_ne h6 c (by rw [hw]; exact List.mem_cons_self c cs)
          dsimp only
          rw [if_neg hcq]
          unfold tryUnquoted
          rw [show (c :: cs : Str) = w from hw.symm,
            takeWhile_all_of_sat _ _ hvq, dropWhile_all_of_sat _ _ hvq]
          rfl
      · cases hw : w with
        | nil =>
          simp only [List.nil_append]
          rw [if_neg (show ¬ (',' : Char) = quoteChar from by decide)]
          unfold tryUnquoted
          rw [show ((',' :: r : Str).takeWhile fun d => d != ',' && d != quoteChar) = []
              from by simp [List.takeWhile_cons],
            show ((',' :: r : Str).dropWhile fun d => d != ',' && d != quoteChar) = ',' :: r
              from by simp [List.dropWhile_cons]]
          rfl
        | cons c cs =>
          have hcq : ¬ c = quoteChar :=
            noChar_ne h6 c (by rw [hw]; exact List.mem_cons_self c cs)
          simp only [List.cons_append]
          rw [if_neg hcq]
          unfold tryUnquoted
          rw [show c :: (cs ++ ',' :: r) = w ++ ',' :: r from by rw [hw]; rfl,
            takeWhile_all_append _ w ',' r hvq (by simp),
            dropWhile_all_append _ w ',' r hvq (by simp)]
          rw [show (c :: cs : Str) = w from hw.symm]
          rfl

/-- The attribute loop on empty input returns no attributes, for any
fuel. -/
theorem readAttributesFuel_nil : ∀ fuel : Nat, readAttributesFuel fuel [] = [] := by
  intro fuel
  cases fuel <;> rfl

/-- A canonical attribute's serialization is nonempty. -/
theorem attrToStr_length_pos (a : Attribute) : 0 < (attrToStr a).length := by
  show 0 < (a.name ++ '=' :: _).length
  simp

/-- skipWhitespace is the identity on input not starting with a blank
or tab. -/
theorem skipWs_cons (c : Char) (cs : Str) (h : (c == ' ' || c == '\t') = false) :
    skipWs (c :: cs) = c :: cs := by
  unfold skipWs
  simp [List.dropWhile_cons, h]

/-- skipWhitespace is the identity on input whose head is not a blank
or tab. -/
theorem skipWs_eq_of_head (l : Str) (c : Char) (hh : l.head? = some c)
    (hc : (c == ' ' || c == '\t') = false) : skipWs l = l := by
  cases l with
  | nil => exact Option.noConfusion hh
  | cons d ds =>
    injection hh with hdc
    rw [hdc]
    exact skipWs_cons c ds hc

/-- skipWhitespace is the identity on the serialization of a canonical
attribute list (the first attribute's name starts it, and canonical
names are nonempty and carry no blanks or tabs). -/
theorem skipWs_serItems (b : Attribute) (bs : List Attribute) (hb : canonAttr b = true) :
    skipWs (serItems ((b :: bs).map attrToStr)) = serItems ((b :: bs).map attrToStr) := by
  have hb' := hb
  unfold canonAttr at hb'
  cases hav : b.value with
  | none => rw [hav] at hb'; exact absurd hb' (by simp)
  | some w =>
    rw [hav] at hb'
    simp only [Bool.and_eq_true] at hb'
    obtain ⟨⟨⟨⟨⟨⟨⟨⟨h1, h2⟩, h3⟩, h4⟩, h5⟩, h6⟩, h7⟩, h8⟩, h9⟩ := hb'
    cases hn : b.name with
    | nil => exact absurd (by rw [hn] at h1; exact h1) (by simp)
    | cons c cn =>
      have hcs : (c == ' ' || c == '\t') = false := by
        have hsp := noChar_ne h4 c (by rw [hn]; exact List.mem_cons_self c cn)
        have htb := noChar_ne h5 c (by rw [hn]; exact List.mem_cons_self c cn)
        simp [hsp, htb]
      have hah : (attrToStr b).head? = some c := by
        simp only [attrToStr, hn, List.cons_append]
        rfl
      have hh : (serItems ((b :: bs).map attrToStr)).head? = some c := by
        cases bs with
        | nil => exact hah
        | cons b2 bs2 =>
          rw [show serItems ((b :: b2 :: bs2).map attrToStr) =
              attrToStr b ++ ',' :: serItems ((b2 :: bs2).map attrToStr) from rfl]
          rw [List.head?_append, hah]
          rfl
      exact skipWs_eq_of_head _ c hh hcs

/-- The attribute loop recovers a canonical attribute list from its
serialization, given fuel at least the input length. -/
theorem readAttributesFuel_ser :
    ∀ (attrs : List Attribute) (fuel : Nat),
      (serItems (attrs.map attrToStr)).length ≤ fuel →
      attrs.all canonAttr = true →
      readAttributesFuel fuel (serItems (attrs.map attrToStr)) = attrs := by
  intro attrs
  induction attrs with
  | nil => intro fuel _ _; exact readAttributesFuel_nil fuel
  | cons a as ih =>
    intro fuel hlen hall
    have hca : canonAttr a = true :=
      List.all_eq_true.mp hall a (List.mem_cons_self a as)
    have hall' : as.all canonAttr = true :=
      List.all_eq_true.mpr fun x hx =>
        List.all_eq_true.mp hall x (List.mem_cons_of_mem a hx)
    cases as with
    | nil =>
      cases fuel with
      | zero =>
        exfalso
        have := attrToStr_length_pos a
        have hz : (serItems ([a].map attrToStr)).length ≤ 0 := hlen
        rw [show serItems ([a].map attrToStr) = attrToStr a from rfl] at hz
        omega
      | succ f =>
        show readAttributesFuel (f + 1) (attrToStr a) = [a]
        unfold readAttributesFuel
        rw [show attrToStr a = attrToStr a ++ [] from (List.append_nil _).symm,
          readAttribute_ser a [] hca (Or.inl rfl)]
        dsimp only
        rw [show skipWs (List.drop 1 ([] : Str)) = ([] : Str) from rfl, readAttributesFuel_nil]
    | cons b bs =>
      have hser : serItems ((a :: b :: bs).map attrToStr) =
          attrToStr a ++ ',' :: serItems ((b :: bs).map attrToStr) := rfl
      cases fuel with
      | zero =>
        exfalso
        have := attrToStr_length_pos a
        rw [hser, List.length_append, List.length_cons] at hlen
        omega
      | succ f =>
        rw [hser]
        unfold readAttributesFuel
        rw [readAttribute_ser a (',' :: serItems ((b :: bs).map attrToStr)) hca
          (Or.inr ⟨_, rfl⟩)]
        dsimp only
        rw [show List.drop 1 (',' :: serItems ((b :: bs).map attrToStr)) =
            serItems ((b :: bs).map attrToStr) from rfl]
        rw [skipWs_serItems b bs
          (List.all_eq_true.mp hall' b (List.mem_cons_self b bs))]
        have hlen' : (serItems ((b :: bs).map attrToStr)).length ≤ f := by
          rw [hser, List.length_append, List.length_cons] at hlen
          have := attrToStr_length_pos a
          omega
        rw [ih f hlen' hall']

/-- The scalar-value read consumes a canonical value that ends the
data. -/
theorem readValue_all (v : Str) (hv : v ≠ []) (hc : noChar v ',' = true)
    (he : noChar v '=' = true) : readValue v = some (v, []) := by
  have hsat : ∀ c ∈ v, (c != ',' && c != '=') = true := by
    intro c hcm
    simp [noChar_ne hc c hcm, noChar_ne he c hcm]
  unfold readValue
  rw [takeWhile_all_of_sat _ _ hsat, dropWhile_all_of_sat _ _ hsat]
  rw [if_neg hv]

/-- The scalar-value read consumes a canonical value up to and
including the comma before the attributes. -/
theorem readValue_comma (v r : Str) (hv : v ≠ []) (hc : noChar v ',' = true)
    (he : noChar v '=' = true) : readValue (v ++ ',' :: r) = some (v, r) := by
  have hsat : ∀ c ∈ v, (c != ',' && c != '=') = true := by
    intro c hcm
    simp [noChar_ne hc c hcm, noChar_ne he c hcm]
  unfold readValue
  rw [takeWhile_all_append _ _ _ _ hsat (by simp),
    dropWhile_all_append _ _ _ _ hsat (by simp)]
  rw [if_neg hv]
  rfl

/-- The scalar-value read fails on data that starts with an attribute:
the equals sign after the key is not a valid value terminator. -/
theorem readValue_attr_first (n rest : Str) (hne : n ≠ []) (hc : noChar n ',' = true)
    (he : noChar n '=' = true) : readValue (n ++ '=' :: rest) = none := by
  have hsat : ∀ c ∈ n, (c != ',' && c != '=') = true := by
    intro c hcm
    simp [noChar_ne hc c hcm, noChar_ne he c hcm]
  unfold readValue
  rw [takeWhile_all_append _ _ _ _ hsat (by simp),
    dropWhile_all_append _ _ _ _ hsat (by simp)]
  rw [if_neg hne]
  rfl

/-- A prefix of a list is a prefix of any extension. -/
theorem isPrefixOf_append (p s r : Str) (h : p.isPrefixOf s = true) :
    p.isPrefixOf (s ++ r) = true := by
  rw [List.isPrefixOf_iff_prefix] at h ⊢
  obtain ⟨t, rfl⟩ := h
  exact ⟨t ++ r, by rw [List.append_assoc]⟩

/-- The tag pattern on the serialization of a data-less tag. -/
theorem parseTagBlocks_ser_no (name : Str)
    (hp : (strLit "EXT").isPrefixOf name = true) (hc : noChar name ':' = true) :
    parseTagBlocks ('#' :: name) = some (name, none) := by
  have hsat : ∀ c ∈ name, (c != ':') = true := fun c hcm => by
    simp [noChar_ne hc c hcm]
  have hpp : (strLit "#EXT").isPrefixOf ('#' :: name) = true := by
    rw [show strLit "#EXT" = '#' :: strLit "EXT" from rfl]
    simp [List.isPrefixOf, hp]
  unfold parseTagBlocks
  rw [if_pos hpp]
  dsimp only
  rw [show ('#' :: name : Str).drop 1 = name from rfl]
  rw [takeWhile_all_of_sat _ _ hsat, dropWhile_all_of_sat _ _ hsat]

/-- The tag pattern on the serialization of a tag with data. -/
theorem parseTagBlocks_ser_data (name dataStr : Str)
    (hp : (strLit "EXT").isPrefixOf name = true) (hc : noChar name ':' = true)
    (hl : dataStr.any isLineTerm = false) :
    parseTagBlocks ('#' :: (name ++ ':' :: dataStr)) = some (name, some dataStr) := by
  have hsat : ∀ c ∈ name, (c != ':') = true := fun c hcm => by
    simp [noChar_ne hc c hcm]
  have hpp : (strLit "#EXT").isPrefixOf ('#' :: (name ++ ':' :: dataStr)) = true := by
    rw [show strLit "#EXT" = '#' :: strLit "EXT" from rfl]
    simp only [List.isPrefixOf, Bool.and_eq_true, beq_self_eq_true, true_and]
    exact isPrefixOf_append _ _ _ hp
  unfold parseTagBlocks
  rw [if_pos hpp]
  dsimp only
  rw [show ('#' :: (name ++ ':' :: dataStr) : Str).drop 1 = name ++ ':' :: dataStr from rfl]
  rw [takeWhile_all_append _ _ _ _ hsat (by simp),
    dropWhile_all_append _ _ _ _ hsat (by simp)]
  dsimp only
  rw [if_neg (by simp [hl])]


/-- The variable part of a serialized attribute, after the key and the
equals sign. -/
def attrRest (a : Attribute) : Str :=
  if (match a.value with
      | some s => jsNumber s != JSNum.nan
      | none => false)
  then (match a.value with | some s => s | none => strLit "undefined")
  else quoteChar ::
    (match a.value with | some s => s | none => strLit "undefined") ++ [quoteChar]

/-- attrToStr splits as key, equals sign, rest. -/
theorem attrToStr_decomp (a : Attribute) :
    attrToStr a = a.name ++ '=' :: attrRest a := rfl

/-- What follows the first key and equals sign in a serialized
attribute list. -/
def serRest (a : Attribute) (as : List Attribute) : Str :=
  match as with
  | [] => attrRest a
  | b :: bs => attrRest a ++ ',' :: serItems ((b :: bs).map attrToStr)

/-- Tag.toString without skipped attributes, in joined form. -/
theorem toString_none_eq (tid : Nat) (nm : Str) (attrs : List Attribute)
    (val : Option Str) :
    Tag.toString ⟨tid, nm, attrs, val⟩ none =
      (if (if jsTruthyStr val then val.getD [] :: attrs.map attrToStr
           else attrs.map attrToStr).length > 0
       then '#' :: nm ++ ':' :: serItems
         (if jsTruthyStr val then val.getD [] :: attrs.map attrToStr
          else attrs.map attrToStr)
       else '#' :: nm) := by
  have hkept : (attrs.filter fun a =>
      match (none : Option (List Str)) with
      | none => true
      | some l => !(l.contains a.name)) = attrs := List.filter_true attrs
  unfold Tag.toString
  rw [hkept]
  simp only [intercalate_comma_eq_serItems]

/-- The serialization of an attribute list headed by an attribute is
nonempty. -/
theorem serItems_map_ne_nil (a : Attribute) (as : List Attribute) :
    serItems ((a :: as).map attrToStr) ≠ [] := by
  cases as with
  | nil =>
    show attrToStr a ≠ []
    exact List.ne_nil_of_length_pos (attrToStr_length_pos a)
  | cons b bs =>
    show attrToStr a ++ ',' :: serItems ((b :: bs).map attrToStr) ≠ []
    simp

/-- The serialization of an attribute list starts with the first
attribute's key and an equals sign. -/
theorem serItems_map_decomp (a : Attribute) (as : List Attribute) :
    serItems ((a :: as).map attrToStr) = a.name ++ '=' :: serRest a as := by
  cases as with
  | nil => exact attrToStr_decomp a
  | cons b bs =>
    show attrToStr a ++ ',' :: serItems ((b :: bs).map attrToStr) = _
    rw [attrToStr_decomp, List.append_assoc, List.cons_append]
    rfl

/-- Components of a canonical attribute's name. -/
theorem canonAttr_name (a : Attribute) (h : canonAttr a = true) :
    a.name ≠ [] ∧ noChar a.name ',' = true ∧ noChar a.name '=' = true := by
  have h' := h
  unfold canonAttr at h'
  cases hav : a.value with
  | none => rw [hav] at h'; exact absurd h' (by simp)
  | some w =>
    rw [hav] at h'
    simp only [Bool.and_eq_true] at h'
    obtain ⟨⟨⟨⟨⟨⟨⟨⟨h1, h2⟩, h3⟩, h4⟩, h5⟩, h6⟩, h7⟩, h8⟩, h9⟩ := h'
    exact ⟨ne_nil_of_not_isEmpty h1, h3, h2⟩

/-- A canonical attribute serializes without line terminators: its key
and value carry none, and the equals sign and quotes are none. -/
theorem attrToStr_noLineTerm (a : Attribute) (h : canonAttr a = true) :
    (attrToStr a).any isLineTerm = false := by
  unfold canonAttr at h
  cases hav : a.value with
  | none => rw [hav] at h; exact absurd h (by simp)
  | some w =>
    rw [hav] at h
    simp only [Bool.and_eq_true] at h
    obtain ⟨⟨⟨⟨⟨⟨⟨⟨h1, h2⟩, h3⟩, h4⟩, h5⟩, h6⟩, h7⟩, h8⟩, h9⟩ := h
    have hname : a.name.any isLineTerm = false := by simpa using h6
    have hw : w.any isLineTerm = false := by simpa using h8
    rw [attrToStr_decomp]
    unfold attrRest
    rw [hav]
    dsimp only
    split
    · simp [List.any_append, List.any_cons, hname, hw,
        show isLineTerm '=' = false from rfl]
    · simp [List.any_append, List.any_cons, hname, hw,
        show isLineTerm '=' = false from rfl,
        show isLineTerm quoteChar = false from rfl]

/-- The comma join of the serialized canonical attributes contains no
line terminator. -/
theorem serItems_map_noLineTerm :
    ∀ (attrs : List Attribute), attrs.all canonAttr = true →
      (serItems (attrs.map attrToStr)).any isLineTerm = false := by
  intro attrs
  induction attrs with
  | nil => intro _; rfl
  | cons a as ih =>
    intro h
    simp only [List.all_cons, Bool.and_eq_true] at h
    have ha := attrToStr_noLineTerm a h.1
    have hrest := ih h.2
    cases as with
    | nil => exact ha
    | cons b bs =>
      show (attrToStr a ++ ',' :: serItems ((b :: bs).map attrToStr)).any
        isLineTerm = false
      rw [List.any_append, ha, List.any_cons, hrest,
        show isLineTerm ',' = false from rfl]
      rfl

/-- Parsing the canonical serialization of a canonical tag recovers the
tag, with the fresh id. -/
theorem parseTag_toString (id : Nat) (t : Tag) (h : canonTag t = true) :
    parseTag id (t.toString none) = .ok ⟨id, t.name, t.attributes, t.value⟩ := by
  obtain ⟨tid, nm, attrs, val⟩ := t
  have h' := h
  simp only [canonTag, Bool.and_eq_true] at h'
  obtain ⟨⟨⟨hpre, hcol⟩, hval⟩, hattrs⟩ := h'
  rw [toString_none_eq]
  cases val with
  | none =>
    rw [show jsTruthyStr none = false from rfl]
    simp only [Bool.false_eq_true, if_false]
    cases attrs with
    | nil =>
      rw [show (if (List.map attrToStr ([] : List Attribute)).length > 0
          then '#' :: nm ++ ':' :: serItems (List.map attrToStr [])
          else '#' :: nm) = '#' :: nm from rfl]
      unfold parseTag
      rw [parseTagBlocks_ser_no nm hpre hcol]
    | cons a as =>
      rw [if_pos (by simp)]
      unfold parseTag
      rw [List.cons_append, parseTagBlocks_ser_data nm _ hpre hcol
        (serItems_map_noLineTerm _ hattrs)]
      dsimp only
      obtain ⟨c, cs, hceq⟩ :=
        List.exists_cons_of_ne_nil (serItems_map_ne_nil a as)
      rw [hceq]
      dsimp only
      rw [← hceq]
      obtain ⟨hn1, hn2, hn3⟩ := canonAttr_name a
        (List.all_eq_true.mp hattrs a (List.mem_cons_self a as))
      rw [serItems_map_decomp, readValue_attr_first _ _ hn1 hn2 hn3,
        ← serItems_map_decomp]
      rw [show readAttributes (serItems ((a :: as).map attrToStr)) =
          readAttributesFuel (serItems ((a :: as).map attrToStr)).length
            (serItems ((a :: as).map attrToStr)) from rfl]
      rw [readAttributesFuel_ser (a :: as) _ (Nat.le_refl _) hattrs]
  | some v =>
    have hv' := hval
    simp only [Bool.and_eq_true] at hv'
    obtain ⟨⟨⟨hv1, hv2⟩, hv3⟩, hv4⟩ := hv'
    have hvne : v ≠ [] := ne_nil_of_not_isEmpty hv1
    have hv4' : v.any isLineTerm = false := by simpa using hv4
    have htruthy : jsTruthyStr (some v) = true := by
      cases v with
      | nil => exact absurd rfl hvne
      | cons c cs => rfl
    rw [htruthy]
    simp only [if_true]
    rw [if_pos (by simp)]
    cases attrs with
    | nil =>
      rw [show serItems ((some v).getD [] :: ([] : List Attribute).map attrToStr)
          = v from rfl]
      unfold parseTag
      rw [List.cons_append, parseTagBlocks_ser_data nm _ hpre hcol hv4']
      dsimp only
      obtain ⟨c, cs, hceq⟩ := List.exists_cons_of_ne_nil hvne
      rw [hceq]
      dsimp only
      rw [← hceq]
      rw [readValue_all v hvne hv2 hv3]
      rfl
    | cons a as =>
      rw [show serItems ((some v).getD [] :: ((a :: as).map attrToStr)) =
          v ++ ',' :: serItems ((a :: as).map attrToStr) from rfl]
      have hdata : (v ++ ',' :: serItems ((a :: as).map attrToStr)).any
          isLineTerm = false := by
        rw [List.any_append, hv4', List.any_cons,
          serItems_map_noLineTerm _ hattrs,
          show isLineTerm ',' = false from rfl]
        rfl
      unfold parseTag
      rw [List.cons_append, parseTagBlocks_ser_data nm _ hpre hcol hdata]
      dsimp only
      have hne : v ++ ',' :: serItems ((a :: as).map attrToStr) ≠ [] := by
        cases v with
        | nil => exact absurd rfl hvne
        | cons c cs => simp
      obtain ⟨c, cs, hceq⟩ := List.exists_cons_of_ne_nil hne
      rw [hceq]
      dsimp only
      rw [← hceq]
      rw [readValue_comma v _ hvne hv2 hv3]
      dsimp only
      rw [show readAttributes (serItems ((a :: as).map attrToStr)) =
          readAttributesFuel (serItems ((a :: as).map attrToStr)).length
            (serItems ((a :: as).map attrToStr)) from rfl]
      rw [readAttributesFuel_ser (a :: as) _ (Nat.le_refl _) hattrs]

/-- C5, counterexample to the unamended claim: the attribute value
Infinity contains no comma and is not a finite number, yet toString
re-emits it unquoted, because the quoting test is isNaN(Number(value))
and Number of the string Infinity is the non-finite infinity, not
NaN. -/
theorem c5_counterexample :
    attrToStr ⟨strLit "A", some (strLit "Infinity")⟩ = strLit "A=Infinity" ∧
      jsNumber (strLit "Infinity") = JSNum.inf true :=
  ⟨rfl, rfl⟩

/-- C5, amended: for every canonically shaped tag (directive-prefixed
colon-free name; nonempty comma-, equals- and line-terminator-free
scalar value if any; attributes with nonempty names free of equals
signs, commas, blanks, tabs and line terminators, values free of line
terminators and of the quote character, and comma-free whenever
Number(value) is not NaN - exactly the tags whose serialization is a
directive line the tag pattern accepts, so that parseTag produces them
back), parsing the serialization and re-serializing reproduces the
serialization byte for byte; and an attribute serializes unquoted if
and only if Number(value) is not NaN - which holds for non-finite
values such as Infinity as well as for finite numbers. -/
theorem c5_roundtrip_amended :
    (∀ (id : Nat) (t : Tag), canonTag t = true →
      (parseTag id (t.toString none)).map (fun u => u.toString none) =
        .ok (t.toString none)) ∧
    (∀ (a : Attribute) (w : Str), a.value = some w →
      (attrToStr a = a.name ++ '=' :: w ↔ jsNumber w ≠ JSNum.nan)) := by
  constructor
  · intro id t h
    obtain ⟨tid, nm, attrs, val⟩ := t
    rw [parseTag_toString id _ h]
    show Except.ok (Tag.toString ⟨id, nm, attrs, val⟩ none) = _
    rw [toString_none_eq, toString_none_eq]
  · intro a w hw
    obtain ⟨nm, av⟩ := a
    dsimp only at hw
    subst hw
    constructor
    · intro heq hnan
      rw [attrToStr_decomp] at heq
      have h2 := List.append_cancel_left heq
      injection h2 with h2a h3
      unfold attrRest at h3
      dsimp only at h3
      rw [hnan] at h3
      rw [if_neg (by decide)] at h3
      have hl := congrArg List.length h3
      simp only [List.length_cons, List.length_append] at hl
      omega
    · intro hne
      have hb : (jsNumber w != JSNum.nan) = true := bne_iff_ne.mpr hne
      rw [attrToStr_decomp]
      show nm ++ '=' :: attrRest ⟨nm, some w⟩ = nm ++ '=' :: w
      unfold attrRest
      dsimp only
      rw [if_pos hb]

/-- The amended round trip instantiated: the parse of the serialized
EXT-X-MEDIA tag with a comma-carrying quoted CODECS attribute
re-serializes identically, and a numeric BANDWIDTH attribute serializes
unquoted. -/
theorem c5_roundtrip_amended_witness :
    (parseTag 7 (Tag.toString ⟨0, strLit "EXT-X-MEDIA",
        [⟨strLit "TYPE", some (strLit "AUDIO")⟩,
         ⟨strLit "CODECS", some (strLit "avc1.64002a,mp4a.40.2")⟩], none⟩ none)).map
      (fun u => Tag.toString u none) =
      .ok (Tag.toString ⟨0, strLit "EXT-X-MEDIA",
        [⟨strLit "TYPE", some (strLit "AUDIO")⟩,
         ⟨strLit "CODECS", some (strLit "avc1.64002a,mp4a.40.2")⟩], none⟩ none) ∧
    (attrToStr ⟨strLit "BANDWIDTH", some (strLit "120000")⟩ =
      strLit "BANDWIDTH" ++ '=' :: strLit "120000" ↔
        jsNumber (strLit "120000") ≠ JSNum.nan) :=
  ⟨c5_roundtrip_amended.1 7 _ (by decide), c5_roundtrip_amended.2 _ _ rfl⟩

end Shaka
